import Mathlib

/-!
Shallow embedding of the nestable activation-checkpointing engine of
`torch/utils/checkpoint.py` (the non-reentrant implementation:
`_CheckpointFrame`, `_checkpoint_stacks`, `_checkpoint_hook`,
`_recomputation_hook`, `_checkpoint_impl` and their helpers).

Modelling conventions:
* Tensors are records carrying an abstract payload, the `requires_grad`
  flag, a floating-or-complex flag `fc`, and a `conn` flag standing for
  "connected to the autograd graph"; `detach` clears `requires_grad` and
  `conn` and keeps the payload, mirroring `Tensor.detach()`.
* `_Handle` objects are identified by the value of a fresh-handle counter;
  `_Holder` objects live in a heap `holders : List (Nat × Option Nat)`
  mapping a holder id to its (mutable) handle slot.  A *weak reference* to
  a holder is its id; the reference is dead exactly when the id is absent
  from the heap (the graph, the sole strong owner, dropped it).
* `_CheckpointFrame` objects live in a heap `frames : List (Nat × Frame)`.
  A frame's `recompute_fn` is modelled by the sequence of tensors the
  callback saves (in replay order) as a function of its inputs; running it
  under `_recomputation_hook` folds the inner pack hook over that sequence.
* The per-invocation instrumentation `log` records every invocation of a
  frame's recompute callback together with the backward id, the arguments,
  the ambient grad mode and the innermost saved-tensors hook; this is the
  counter instrumentation the specification's testable properties describe
  and is written to by no other operation.
* Python exceptions are an `Except Err` result threaded *together with*
  the mutated state (Python state changes are not rolled back by a raise).
  `Err.stop` is `_StopRecomputationError`; `Err.doubleConsumption` and
  `Err.missingRecomputed` are the two `RuntimeError`s of `unpack_hook`;
  `Err.assertFail` covers failing `assert` statements, `Err.indexError`
  out-of-range list indexing and `Err.keyError` missing dictionary keys.
-/

/-- Abstract tensor: payload plus the gradient-tracking flags the code
inspects (`requires_grad`, `is_floating_point()/is_complex()` as `fc`) and a
graph-connectivity flag `conn` distinguishing a detached tensor. -/
structure Tensor where
  payload : Nat
  requiresGrad : Bool
  fc : Bool
  conn : Bool
deriving DecidableEq

/-- `t.detach()` : same payload, no grad requirement, cut from the graph. -/
def Tensor.detach (t : Tensor) : Tensor :=
  { t with requiresGrad := false, conn := false }

/-- Inputs of a checkpointed function: tensors or arbitrary non-tensor
values (the code guards several paths with `isinstance(t, torch.Tensor)`). -/
inductive Inp where
  | tensor : Tensor → Inp
  | other : Nat → Inp
deriving DecidableEq

/-- The saved-tensors hook installed innermost: the outer `_checkpoint_hook`
or the inner `_recomputation_hook` (carrying its target frame and gid). -/
inductive Hook where
  | outer : Hook
  | inner : Nat → Nat → Hook
deriving DecidableEq

/-- Python exceptions raised by the embedded code. -/
inductive Err where
  | stop
  | doubleConsumption
  | missingRecomputed
  | assertFail
  | indexError
  | keyError
deriving DecidableEq

/-- One recorded invocation of a frame's `recompute_fn` (ghost
instrumentation): which frame, under which backward id, with which
arguments, and the ambient grad mode / innermost hook at call time. -/
structure Invoc where
  fid : Nat
  gid : Nat
  args : List Inp
  gradMode : Bool
  hook : Option Hook
deriving DecidableEq

/-- `_CheckpointFrame`: per-checkpoint-region bookkeeping (source lines
580-617).  `recomputed` maps gid to a handle-keyed cache, `recomp_counter`
and `is_recomputed` are the per-gid defaultdicts. -/
structure Frame where
  recompute_fn : List Inp → List Tensor
  maybe_args : Option (List Inp)
  args_idx : Option (List Nat)
  args_handles : Option (List Nat)
  child_args_idx : List Nat
  weak_holders : List Nat
  recomputed : List (Nat × List (Nat × Tensor))
  recomp_counter : List (Nat × Nat)
  is_recomputed : List (Nat × Bool)

/-- Global mutable state of the module: the two heaps, the stack of
checkpoint stacks `_checkpoint_stacks` (last element = current entry), the
saved-tensors hook stack (head = innermost), grad mode, the early-stop
switch `_enable_checkpoint_early_stop`, the ambient backward id
(`torch._C._current_graph_task_id()`, `none` for -1), fresh-id counters and
the instrumentation log. -/
structure St where
  frames : List (Nat × Frame)
  holders : List (Nat × Option Nat)
  cstacks : List (List Nat × Bool)
  hooks : List Hook
  gradMode : Bool
  earlyStop : Bool
  ambientGid : Option Nat
  nextHandle : Nat
  nextHolder : Nat
  nextFrame : Nat
  nextUuid : Nat
  log : List Invoc

/-- Association-list lookup (dictionary / heap access by id). -/
def alook {α : Type} (k : Nat) : List (Nat × α) → Option α
  | [] => none
  | (k', v) :: t => if k' = k then some v else alook k t

/-- Lookup with a default value (`collections.defaultdict` read). -/
def alookD {α : Type} (l : List (Nat × α)) (k : Nat) (d : α) : α :=
  (alook k l).getD d

/-- Insert-or-replace (dictionary write). -/
def aset {α : Type} (k : Nat) (v : α) : List (Nat × α) → List (Nat × α)
  | [] => [(k, v)]
  | (k', v') :: t => if k' = k then (k, v) :: t else (k', v') :: aset k v t

/-- `_checkpoint_hook.pack_hook` (source lines 670-678): snapshot the
current checkpoint stack entry, allocate a fresh `_Handle`, wrap it in a
fresh `_Holder`, append a weak reference to the holder to the innermost
frame's `weak_holders`, and return the pair (holder, frame snapshot).  The
argument tensor is ignored: the value itself is never stored. -/
def checkpoint_pack_hook (_x : Tensor) (s : St) : Except Err (Nat × List Nat) × St :=
  match s.cstacks.getLast? with
  | none => (Except.error Err.indexError, s)
  | some cur =>
    match cur.1.getLast? with
    | none => (Except.error Err.indexError, s)
    | some topFid =>
      match alook topFid s.frames with
      | none => (Except.error Err.assertFail, s)
      | some fr =>
        (Except.ok (s.nextHolder, cur.1),
         { s with
             holders := (s.nextHolder, some s.nextHandle) :: s.holders,
             frames := aset topFid
               { fr with weak_holders := fr.weak_holders ++ [s.nextHolder] } s.frames,
             nextHandle := s.nextHandle + 1,
             nextHolder := s.nextHolder + 1 })

/-- `_recomputation_hook.pack_hook` (source lines 641-661): bump the
per-gid counter, index `weak_holders` at the counter's pre-increment
value, record the (possibly detached) value under the holder's handle when
the weak reference is live — allocating a fresh handle if the holder's was
cleared — raise `_StopRecomputationError` when early stop is enabled and
the counter reached the number of recorded positions, and otherwise return
a detached copy of the value. -/
def recomputation_pack_hook (fid gid : Nat) (x : Tensor) (s : St) :
    Except Err Tensor × St :=
  match alook fid s.frames with
  | none => (Except.error Err.assertFail, s)
  | some fr =>
    let recompIdx := alookD fr.recomp_counter gid 0
    let newCounter := aset gid (recompIdx + 1) fr.recomp_counter
    match fr.weak_holders.get? recompIdx with
    | none =>
        (Except.error Err.indexError,
         { s with frames := aset fid { fr with recomp_counter := newCounter } s.frames })
    | some hid =>
      let stopNow := s.earlyStop && (recompIdx + 1 == fr.weak_holders.length)
      match alook hid s.holders with
      | none =>
        let s1 := { s with frames := aset fid { fr with recomp_counter := newCounter } s.frames }
        if stopNow then (Except.error Err.stop, s1) else (Except.ok x.detach, s1)
      | some hOpt =>
        let handle := match hOpt with | none => s.nextHandle | some h => h
        let holders2 := match hOpt with
          | none => aset hid (some s.nextHandle) s.holders
          | some _ => s.holders
        let nh2 := match hOpt with | none => s.nextHandle + 1 | some _ => s.nextHandle
        let v := if fr.child_args_idx.contains recompIdx then x else x.detach
        let fr2 := { fr with
            recomp_counter := newCounter,
            recomputed := aset gid (aset handle v (alookD fr.recomputed gid [])) fr.recomputed }
        let s1 := { s with frames := aset fid fr2 s.frames,
                           holders := holders2, nextHandle := nh2 }
        if stopNow then (Except.error Err.stop, s1) else (Except.ok x.detach, s1)

/-- A tensor about to be saved is routed through the innermost
saved-tensors hook, if any (the differentiation engine's hook dispatch). -/
def packDispatch (x : Tensor) (s : St) : Except Err Unit × St :=
  match s.hooks.head? with
  | none => (Except.ok (), s)
  | some Hook.outer =>
    match checkpoint_pack_hook x s with
    | (Except.ok _, s') => (Except.ok (), s')
    | (Except.error e, s') => (Except.error e, s')
  | some (Hook.inner fid gid) =>
    match recomputation_pack_hook fid gid x s with
    | (Except.ok _, s') => (Except.ok (), s')
    | (Except.error e, s') => (Except.error e, s')

/-- `_NoopSaveInputs.setup_context` calls `ctx.save_for_backward(*inputs)`,
which routes every tensor input through the active pack hook. -/
def noopSaveInputsSaves : List Inp → St → Except Err Unit × St
  | [], s => (Except.ok (), s)
  | Inp.tensor t :: rest, s =>
    match packDispatch t s with
    | (Except.ok _, s') => noopSaveInputsSaves rest s'
    | (Except.error e, s') => (Except.error e, s')
  | Inp.other _ :: rest, s => noopSaveInputsSaves rest s

/-- The predicate of source line 575-576: a tensor input that does not
require grad and is floating-point or complex. -/
def Inp.noReqGradFloating : Inp → Bool
  | Inp.tensor t => (!t.requiresGrad) && t.fc
  | Inp.other _ => false

/-- `idx_no_req_grad` of `_applyAutogradFunctionToSaveInputs`:
`[i for i, t in enumerate(args) if isinstance(t, torch.Tensor) and not
t.requires_grad and (t.is_floating_point() or t.is_complex())]`. -/
def idxNoReqGradAux : Nat → List Inp → List Nat
  | _, [] => []
  | i, a :: rest =>
    if a.noReqGradFloating then i :: idxNoReqGradAux (i + 1) rest
    else idxNoReqGradAux (i + 1) rest

/-- Positions selected by `idx_no_req_grad` for a given argument list. -/
def idx_no_req_grad (args : List Inp) : List Nat := idxNoReqGradAux 0 args

/-- `i.detach()` lifted to inputs; only ever applied at tensor positions. -/
def Inp.detach : Inp → Inp
  | Inp.tensor t => Inp.tensor t.detach
  | Inp.other n => Inp.other n

/-- The positional map of source line 578:
`tuple(t.detach() if i in idx_no_req_grad else t for i, t in enumerate(new_args))`. -/
def adapterDetachMap (noreq : List Nat) : Nat → List Inp → List Inp
  | _, [] => []
  | i, a :: rest =>
    (if noreq.contains i then a.detach else a) :: adapterDetachMap noreq (i + 1) rest

/-- Value-level result of `_applyAutogradFunctionToSaveInputs` (source
lines 573-578).  Modelled from the spec: the autograd engine is an external
collaborator and `_NoopSaveInputs.forward` "returns them unmodified" — the
identity computation whose only role is to route every input through the
save mechanism — so `new_args` carries the same values as `args` and the
wrapper then detaches exactly the positions in `idx_no_req_grad`. -/
def applyAutogradFunctionToSaveInputsVals (args : List Inp) : List Inp :=
  adapterDetachMap (idx_no_req_grad args) 0 args

/-- `_applyAutogradFunctionToSaveInputs`: perform the per-input saves of
the identity autograd Function, then return the inputs with the
non-requires-grad floating/complex positions detached. -/
def applyAutogradFunctionToSaveInputs (args : List Inp) (s : St) :
    Except Err (List Inp) × St :=
  match noopSaveInputsSaves args s with
  | (Except.ok _, s') => (Except.ok (applyAutogradFunctionToSaveInputsVals args), s')
  | (Except.error e, s') => (Except.error e, s')

/-- Inner loop of `_CheckpointFrame.get_args_from_parent` (source lines
602-607): for each recorded position, dereference the parent's weak holder
(asserting liveness) and read the parent's per-gid recomputed cache at the
holder's handle. -/
def get_args_from_parent_loop (parent : Frame) (gid : Nat) (s : St) :
    List Nat → Except Err (List Inp)
  | [] => Except.ok []
  | idx :: rest =>
    match parent.weak_holders.get? idx with
    | none => Except.error Err.indexError
    | some hid =>
      match alook hid s.holders with
      | none => Except.error Err.assertFail
      | some none => Except.error Err.keyError
      | some (some h) =>
        match alook h (alookD parent.recomputed gid []) with
        | none => Except.error Err.keyError
        | some v =>
          match get_args_from_parent_loop parent gid s rest with
          | Except.ok out => Except.ok (Inp.tensor v :: out)
          | Except.error e => Except.error e

/-- `_CheckpointFrame.get_args_from_parent` (source lines 600-607). -/
def get_args_from_parent (fid pfid gid : Nat) (s : St) :
    Except Err (List Inp) × St :=
  match alook fid s.frames with
  | none => (Except.error Err.assertFail, s)
  | some fr =>
    match alook pfid s.frames with
    | none => (Except.error Err.assertFail, s)
    | some pfr =>
      match fr.args_idx with
      | none => (Except.error Err.assertFail, s)
      | some idxs => (get_args_from_parent_loop pfr gid s idxs, s)

/-- `_CheckpointFrame.save_args_to_parent` (source lines 609-617): note the
pre-length of the parent's `weak_holders`, run the inputs through the
identity-save adapter, then record the new slice as the child's
`args_handles`/`args_idx` and extend the parent's `child_args_idx`. -/
def save_args_to_parent (fid pfid : Nat) (args : List Inp) (s : St) :
    Except Err (List Inp) × St :=
  match alook pfid s.frames with
  | none => (Except.error Err.assertFail, s)
  | some pfr =>
    let parentPreLen := pfr.weak_holders.length
    match applyAutogradFunctionToSaveInputs args s with
    | (Except.error e, s') => (Except.error e, s')
    | (Except.ok newArgs, s') =>
      match alook pfid s'.frames with
      | none => (Except.error Err.assertFail, s')
      | some pfr' =>
        match alook fid s'.frames with
        | none => (Except.error Err.assertFail, s')
        | some fr' =>
          let indices := List.range' parentPreLen (pfr'.weak_holders.length - parentPreLen)
          (Except.ok newArgs,
           { s' with
               frames := aset fid
                 { fr' with
                     args_handles := some (pfr'.weak_holders.drop parentPreLen),
                     args_idx := some indices }
                 (aset pfid
                   { pfr' with child_args_idx := pfr'.child_args_idx ++ indices }
                   s'.frames) })

/-- A freshly constructed `_CheckpointFrame(recompute_fn)` (source 581-595). -/
def emptyFrame (rfn : List Inp → List Tensor) : Frame :=
  { recompute_fn := rfn, maybe_args := none, args_idx := none,
    args_handles := none, child_args_idx := [], weak_holders := [],
    recomputed := [], recomp_counter := [], is_recomputed := [] }

/-- `curr_stack.append(new_frame)` : push a frame id onto the frame list of
the current (last) checkpoint stack entry. -/
def pushFrameOnCurr (fid : Nat) (s : St) : St :=
  { s with cstacks :=
      match s.cstacks.getLast? with
      | none => s.cstacks
      | some cur => s.cstacks.dropLast ++ [(cur.1 ++ [fid], cur.2)] }

/-- Entry phase of `_checkpoint_impl` (source lines 800-814): create the
frame, then dispatch on the current stack entry — nested (inputs delegated
to the parent via `save_args_to_parent`, `maybe_args` left `None`),
top-level during a recomputation (inputs run through the identity-save
adapter *and* the adapter's outputs kept in `maybe_args`), or plain
top-level (raw inputs kept in `maybe_args`) — and finally push the frame
onto the current stack entry. -/
def checkpoint_impl_enter (rfn : List Inp → List Tensor) (args : List Inp)
    (s : St) : Except Err (Nat × List Inp) × St :=
  match s.cstacks.getLast? with
  | none => (Except.error Err.indexError, s)
  | some cur =>
    let fid := s.nextFrame
    let s0 := { s with nextFrame := fid + 1, frames := aset fid (emptyFrame rfn) s.frames }
    match cur.1.getLast? with
    | some pfid =>
      match save_args_to_parent fid pfid args s0 with
      | (Except.error e, s') => (Except.error e, s')
      | (Except.ok args', s') => (Except.ok (fid, args'), pushFrameOnCurr fid s')
    | none =>
      if cur.2 then
        match applyAutogradFunctionToSaveInputs args s0 with
        | (Except.error e, s') => (Except.error e, s')
        | (Except.ok args', s') =>
          match alook fid s'.frames with
          | none => (Except.error Err.assertFail, s')
          | some fr =>
            (Except.ok (fid, args'),
             pushFrameOnCurr fid
               { s' with frames := aset fid { fr with maybe_args := some args' } s'.frames })
      else
        match alook fid s0.frames with
        | none => (Except.error Err.assertFail, s0)
        | some fr =>
          (Except.ok (fid, args),
           pushFrameOnCurr fid
             { s0 with frames := aset fid { fr with maybe_args := some args } s0.frames })

/-- Replay of the saves performed by a recompute callback: fold the inner
pack hook over the sequence of saved tensors. -/
def saveLoop (fid gid : Nat) : List Tensor → St → Except Err Unit × St
  | [], s => (Except.ok (), s)
  | x :: xs, s =>
    match recomputation_pack_hook fid gid x s with
    | (Except.ok _, s') => saveLoop fid gid xs s'
    | (Except.error e, s') => (Except.error e, s')

/-- `frame.recompute_fn(*args)` under `_recomputation_hook`, followed by
the `assert not _enable_checkpoint_early_stop` of source line 703.  The
invocation is appended to the instrumentation log. -/
def runRecompute (fid gid : Nat) (args : List Inp) (s : St) :
    Except Err Unit × St :=
  match alook fid s.frames with
  | none => (Except.error Err.assertFail, s)
  | some fr =>
    let s1 := { s with log :=
        s.log ++ [{ fid := fid, gid := gid, args := args,
                    gradMode := s.gradMode, hook := s.hooks.head? }] }
    match saveLoop fid gid (fr.recompute_fn args) s1 with
    | (Except.ok _, s2) =>
      if s2.earlyStop then (Except.error Err.assertFail, s2) else (Except.ok (), s2)
    | (Except.error e, s2) => (Except.error e, s2)

/-- The `with _recomputation_hook(weakref.ref(frame), gid),
torch.autograd.enable_grad():` block of source line 701: push the inner
hook and enable grad mode, run the body, restore both on every exit path
(context managers also run their exits on an exception). -/
def recomputeUnderHook (fid gid : Nat) (args : List Inp) (s : St) :
    Except Err Unit × St :=
  let prevGrad := s.gradMode
  let s1 := { s with hooks := Hook.inner fid gid :: s.hooks, gradMode := true }
  let r := runRecompute fid gid args s1
  (r.1, { r.2 with hooks := r.2.hooks.tail, gradMode := prevGrad })

/-- The `try`/`except _StopRecomputationError` block of source lines
698-707: push a fresh stack entry marked as recomputation, run the
callback under the inner hook, and pop the entry *only* in the
`except _StopRecomputationError` handler — the normal-completion path
falls through without popping, exactly as the source does. -/
def tryRecompute (fid gid : Nat) (args : List Inp) (s : St) :
    Except Err Unit × St :=
  let sPushed := { s with cstacks := s.cstacks ++ [([], true)] }
  match recomputeUnderHook fid gid args sPushed with
  | (Except.ok _, s2) => (Except.ok (), s2)
  | (Except.error Err.stop, s2) => (Except.ok (), { s2 with cstacks := s2.cstacks.dropLast })
  | (Except.error e, s2) => (Except.error e, s2)

/-- `frame.is_recomputed[gid] = True` (source line 708). -/
def markRecomputed (fid gid : Nat) (s : St) : St :=
  match alook fid s.frames with
  | none => s
  | some fr =>
    { s with
        frames := aset fid { fr with is_recomputed := aset gid true fr.is_recomputed } s.frames }

/-- `frames[i - 1]` with Python indexing: for `i = 0` this is the *last*
element of the list. -/
def pyPrev (fl : List Nat) (i : Nat) : Option Nat :=
  if i = 0 then fl.get? (fl.length - 1) else fl.get? (i - 1)

/-- Body of the `for i in range(len(frames))` loop of `unpack_hook`
(source lines 689-708) at index `i`: skip a frame already recomputed for
`gid`, otherwise pick its arguments from `maybe_args` or from the parent's
recomputed cache, recompute it, and mark it recomputed. -/
def processOneFrame (gid : Nat) (fl : List Nat) (i : Nat) (s : St) :
    Except Err Unit × St :=
  match fl.get? i with
  | none => (Except.error Err.indexError, s)
  | some fid =>
    match alook fid s.frames with
    | none => (Except.error Err.assertFail, s)
    | some fr =>
      if alookD fr.is_recomputed gid false then (Except.ok (), s)
      else
        let argsR : Except Err (List Inp) × St :=
          match fr.maybe_args with
          | some args => (Except.ok args, s)
          | none =>
            match pyPrev fl i with
            | none => (Except.error Err.indexError, s)
            | some pfid => get_args_from_parent fid pfid gid s
        match argsR with
        | (Except.error e, s1) => (Except.error e, s1)
        | (Except.ok args, s1) =>
          match tryRecompute fid gid args s1 with
          | (Except.ok _, s2) => (Except.ok (), markRecomputed fid gid s2)
          | (Except.error e, s2) => (Except.error e, s2)

/-- The loop of `unpack_hook` over a list of indices. -/
def processLoop (gid : Nat) (fl : List Nat) : List Nat → St → Except Err Unit × St
  | [], s => (Except.ok (), s)
  | i :: rest, s =>
    match processOneFrame gid fl i s with
    | (Except.ok _, s') => processLoop gid fl rest s'
    | (Except.error e, s') => (Except.error e, s')

/-- `for i in range(len(frames))` : process every captured frame, in
outermost-to-innermost order. -/
def processFrames (gid : Nat) (fl : List Nat) (s : St) : Except Err Unit × St :=
  processLoop gid fl (List.range fl.length) s

/-- Backward-invocation identifier selection of source lines 684-687: the
ambient graph task id when one is active, otherwise a freshly synthesized
unique id (`uuid.uuid4()`, modelled by the fresh-uuid counter). -/
def selectGid (s : St) : Nat × St :=
  match s.ambientGid with
  | some g => (g, s)
  | none => (s.nextUuid, { s with nextUuid := s.nextUuid + 1 })

/-- `_checkpoint_hook.unpack_hook` (source lines 680-724): recompute every
not-yet-recomputed frame of the captured sequence, then fail with
`doubleConsumption` if the holder's handle was already cleared, fail with
`missingRecomputed` if the innermost frame's cache has no entry for the
handle, and otherwise clear the holder's handle and return the cached
value. -/
def checkpoint_unpack_hook (saved : Nat × List Nat) (s : St) :
    Except Err Tensor × St :=
  match saved.2.getLast? with
  | none => (Except.error Err.indexError, s)
  | some topFid =>
    let gid := (selectGid s).1
    let r1 := processFrames gid saved.2 (selectGid s).2
    match r1.1 with
    | Except.error e => (Except.error e, r1.2)
    | Except.ok _ =>
      match alook saved.1 r1.2.holders with
      | none => (Except.error Err.assertFail, r1.2)
      | some none => (Except.error Err.doubleConsumption, r1.2)
      | some (some h) =>
        match alook topFid r1.2.frames with
        | none => (Except.error Err.assertFail, r1.2)
        | some topFr =>
          match alook h (alookD topFr.recomputed gid []) with
          | none => (Except.error Err.missingRecomputed, r1.2)
          | some v =>
            (Except.ok v, { r1.2 with holders := aset saved.1 none r1.2.holders })

/-- `_pack_kwargs` (source lines 541-548): flatten positional arguments
followed by the keyword values, returning the flat tuple and the key
tuple.  A keyword map is an insertion-ordered association list, as a
Python `dict` is. -/
def pack_kwargs {V : Type} (args : List V) (kwargs : List (String × V)) :
    List V × List String :=
  (args ++ kwargs.map Prod.snd, kwargs.map Prod.fst)

/-- `_unpack_kwargs` (source lines 550-556): check the key count, split
the flat tuple, and rebuild the keyword map by zipping keys with the tail
values; `none` models the failing `assert`. -/
def unpack_kwargs {V : Type} (flatArgs : List V) (kwargKeys : List String) :
    Option (List V × List (String × V)) :=
  if kwargKeys.length ≤ flatArgs.length then
    if kwargKeys.length = 0 then some (flatArgs, [])
    else
      some (flatArgs.take (flatArgs.length - kwargKeys.length),
            kwargKeys.zip (flatArgs.drop (flatArgs.length - kwargKeys.length)))
  else none

/-- Decidable equality of `Except` results, for evaluating the embedding
at concrete inputs. -/
instance {e a : Type} [DecidableEq e] [DecidableEq a] : DecidableEq (Except e a) := fun x y =>
  match x, y with
  | Except.ok u, Except.ok v =>
    if h : u = v then isTrue (by rw [h]) else isFalse (by simp [h])
  | Except.error u, Except.error v =>
    if h : u = v then isTrue (by rw [h]) else isFalse (by simp [h])
  | Except.ok _, Except.error _ => isFalse (by simp)
  | Except.error _, Except.ok _ => isFalse (by simp)

/-- A concrete floating-point tensor that does not require grad. -/
def demoTensor : Tensor := { payload := 7, requiresGrad := false, fc := true, conn := true }

/-- A concrete frame: no inputs, one saved position (holder id 0), and a
recompute callback that replays exactly that one save. -/
def demoFrame : Frame :=
  { recompute_fn := fun _ => [demoTensor],
    maybe_args := some [], args_idx := none, args_handles := none,
    child_args_idx := [], weak_holders := [0],
    recomputed := [], recomp_counter := [], is_recomputed := [] }

/-- A concrete module state after the original forward of one top-level
checkpoint region: frame 0 recorded one save whose holder (id 0, handle 0)
is still alive, the region has been exited, no backward is ambient, and
early stop is disabled (the source's default, line 520). -/
def demoSt : St :=
  { frames := [(0, demoFrame)], holders := [(0, some 0)],
    cstacks := [([], false)], hooks := [], gradMode := false,
    earlyStop := false, ambientGid := none,
    nextHandle := 1, nextHolder := 1, nextFrame := 1, nextUuid := 0, log := [] }

/-- The `requires_grad` flag an input exposes to autograd (a non-tensor
exposes none). -/
def Inp.requiresGradB : Inp → Bool
  | Inp.tensor t => t.requiresGrad
  | Inp.other _ => false

/-- A state in which frame 0 is the innermost active frame of the current
checkpoint stack entry (mid-forward inside the region). -/
def demoPackSt : St := { demoSt with cstacks := [([0], false)] }

/-- The state reached after the recompute loop of a restore of
`(holder 0, frames [0])` over `demoSt`. -/
def demoMid : St := (processFrames (selectGid demoSt).1 [0] (selectGid demoSt).2).2

/-- Frame 0 of `demoMid`: counter 1, one cached value, marked recomputed. -/
def demoMidFrame : Frame :=
  { recompute_fn := fun _ => [demoTensor],
    maybe_args := some [], args_idx := none, args_handles := none,
    child_args_idx := [], weak_holders := [0],
    recomputed := [(0, [(0, demoTensor.detach)])],
    recomp_counter := [(0, 1)], is_recomputed := [(0, true)] }

/-- The `is_recomputed` flag of frame `fid` for backward id `gid` (false
when the frame does not exist). -/
def recFlag (s : St) (fid gid : Nat) : Bool :=
  match alook fid s.frames with
  | some fr => alookD fr.is_recomputed gid false
  | none => false

/-- Number of recorded invocations of frame `fid`'s recompute callback
under backward id `gid` (the spec's counter instrumentation). -/
def countInvoc (fid gid : Nat) (log : List Invoc) : Nat :=
  (log.filter (fun e => e.fid == fid && e.gid == gid)).length

/-- Number of tensor inputs in an argument list (each is saved once by
`ctx.save_for_backward`). -/
def tensorCount : List Inp → Nat
  | [] => 0
  | Inp.tensor _ :: rest => tensorCount rest + 1
  | Inp.other _ :: rest => tensorCount rest

/-- Equality of two module states on every component except the global
checkpoint-stack list and the early-stop switch: the observables of a
restore (heaps, hook stack, grad mode, ambient id, fresh counters and the
instrumentation log). -/
def obsEq (s t : St) : Prop :=
  s.frames = t.frames ∧ s.holders = t.holders ∧ s.hooks = t.hooks ∧
  s.gradMode = t.gradMode ∧ s.ambientGid = t.ambientGid ∧
  s.nextHandle = t.nextHandle ∧ s.nextHolder = t.nextHolder ∧
  s.nextFrame = t.nextFrame ∧ s.nextUuid = t.nextUuid ∧ s.log = t.log

/-- Replay invariant for one backward id: every frame's recompute callback
saves exactly as many tensors as it has recorded positions, at least one
position is recorded, and a frame not yet recomputed for the id has a
zero replay counter for it. -/
def stInv (s : St) (gid : Nat) : Prop :=
  ∀ f fr, alook f s.frames = some fr →
    (∀ a, (fr.recompute_fn a).length = fr.weak_holders.length) ∧
    0 < fr.weak_holders.length ∧
    (alookD fr.is_recomputed gid false = false → alookD fr.recomp_counter gid 0 = 0)

theorem alook_aset_self {α : Type} (k : Nat) (v : α) (l : List (Nat × α)) :
    alook k (aset k v l) = some v := by
  induction l with
  | nil => simp [alook, aset]
  | cons hd tl ih =>
    by_cases h : hd.1 = k
    · simp [alook, aset, h]
    · simp [alook, aset, h, ih]

theorem alook_aset_ne {α : Type} {k k' : Nat} (h : k' ≠ k) (v : α) (l : List (Nat × α)) :
    alook k (aset k' v l) = alook k l := by
  induction l with
  | nil => simp [alook, aset, h]
  | cons hd tl ih =>
    obtain ⟨a, b⟩ := hd
    by_cases h2 : a = k'
    · subst h2
      simp [alook, aset, h]
    · by_cases h3 : a = k
      · subst h3
        simp [alook, aset, h2]
      · simp [alook, aset, h2, h3, ih]

theorem alookD_aset_self {α : Type} (k : Nat) (v d : α) (l : List (Nat × α)) :
    alookD (aset k v l) k d = v := by
  simp [alookD, alook_aset_self]

theorem alookD_aset_ne {α : Type} {k k' : Nat} (h : k' ≠ k) (v d : α) (l : List (Nat × α)) :
    alookD (aset k' v l) k d = alookD l k d := by
  simp [alookD, alook_aset_ne h]

theorem aset_aset_self {α : Type} (k : Nat) (v w : α) (l : List (Nat × α)) :
    aset k v (aset k w l) = aset k v l := by
  induction l with
  | nil => simp [aset]
  | cons hd tl ih =>
    by_cases h : hd.1 = k
    · simp [aset, h]
    · simp [aset, h, ih]

theorem alook_mem {α : Type} {k : Nat} {v : α} :
    ∀ {l : List (Nat × α)}, alook k l = some v → (k, v) ∈ l := by
  intro l
  induction l with
  | nil => intro h; simp [alook] at h
  | cons hd tl ih =>
    intro h
    obtain ⟨a, b⟩ := hd
    by_cases h2 : a = k
    · subst h2
      simp [alook] at h
      subst h
      exact List.mem_cons_self _ _
    · simp [alook, h2] at h
      exact List.mem_cons_of_mem _ (ih h)

/-- Claim C10: unpacking the result of packing recovers the positional
arguments and the keyword map exactly: `_unpack_kwargs` applied to the
flat tuple and key tuple produced by `_pack_kwargs` returns the original
arguments and keywords. -/
theorem pack_unpack_kwargs_roundtrip {V : Type} (args : List V) (kwargs : List (String × V)) :
    unpack_kwargs (pack_kwargs args kwargs).1 (pack_kwargs args kwargs).2 =
      some (args, kwargs) := by
  simp only [pack_kwargs, unpack_kwargs, List.length_map, List.length_append]
  by_cases h0 : kwargs.length = 0
  · have hnil : kwargs = [] := List.length_eq_zero.mp h0
    subst hnil
    simp
  · rw [if_pos (Nat.le_add_left _ _), if_neg h0]
    have htake : (args ++ kwargs.map Prod.snd).take (args.length + kwargs.length - kwargs.length)
        = args := by
      rw [Nat.add_sub_cancel]
      exact List.take_left args (kwargs.map Prod.snd)
    have hdrop : (args ++ kwargs.map Prod.snd).drop (args.length + kwargs.length - kwargs.length)
        = kwargs.map Prod.snd := by
      rw [Nat.add_sub_cancel]
      exact List.drop_left args (kwargs.map Prod.snd)
    rw [htake, hdrop]
    have hzip : (kwargs.map Prod.fst).zip (kwargs.map Prod.snd) = kwargs := by
      rw [List.zip_map']
      simp
    rw [hzip]

/-- Claim C4 (divergence witness): when early stop is disabled (the
source's default) and the recompute callback completes normally, the
stack entry pushed before the callback is *not* popped — the pop of
source lines 705-707 sits only in the `except _StopRecomputationError`
handler — so one restore over `demoSt` leaves the global checkpoint-stack
list grown by the leaked `([], is_recompute := true)` entry, while the
early-stop-aborted path does pop it. -/
theorem recompute_stack_entry_leak :
    (checkpoint_unpack_hook (0, [0]) demoSt).2.cstacks ≠ demoSt.cstacks
  ∧ (checkpoint_unpack_hook (0, [0]) demoSt).2.cstacks = demoSt.cstacks ++ [([], true)]
  ∧ (checkpoint_unpack_hook (0, [0]) demoSt).1 = Except.ok demoTensor.detach
  ∧ (checkpoint_unpack_hook (0, [0]) { demoSt with earlyStop := true }).2.cstacks
      = demoSt.cstacks := by
  refine ⟨by decide, by decide, by rfl, by decide⟩

theorem idxNoReqGradAux_ge {m : Nat} :
    ∀ {l : List Inp} {k : Nat}, m ∈ idxNoReqGradAux k l → k ≤ m := by
  intro l
  induction l with
  | nil => intro k h; simp [idxNoReqGradAux] at h
  | cons a rest ih =>
    intro k h
    simp only [idxNoReqGradAux] at h
    by_cases ha : a.noReqGradFloating
    · rw [if_pos ha] at h
      rcases List.mem_cons.mp h with h1 | h2
      · exact h1 ▸ Nat.le_refl _
      · exact Nat.le_of_succ_le (ih h2)
    · rw [if_neg ha] at h
      exact Nat.le_of_succ_le (ih h)

theorem idxNoReqGradAux_mem :
    ∀ (l : List Inp) (k j : Nat),
      ((k + j) ∈ idxNoReqGradAux k l) ↔
        ((l.get? j).map Inp.noReqGradFloating).getD false = true := by
  intro l
  induction l with
  | nil => intro k j; simp [idxNoReqGradAux]
  | cons a rest ih =>
    intro k j
    cases j with
    | zero =>
      simp only [Nat.add_zero, List.get?, Option.map_some', Option.getD_some]
      by_cases ha : a.noReqGradFloating
      · simp [idxNoReqGradAux, ha]
      · simp only [idxNoReqGradAux, if_neg ha, ha]
        constructor
        · intro h
          exact absurd (idxNoReqGradAux_ge h) (by omega)
        · intro h; exact absurd h (by simp)
    | succ j' =>
      have hsh : k + (j' + 1) = (k + 1) + j' := by omega
      simp only [List.get?]
      by_cases ha : a.noReqGradFloating
      · simp only [idxNoReqGradAux, if_pos ha, List.mem_cons]
        rw [hsh]
        constructor
        · intro h
          rcases h with h1 | h2
          · exact absurd h1 (by omega)
          · exact (ih (k + 1) j').mp h2
        · intro h
          exact Or.inr ((ih (k + 1) j').mpr h)
      · simp only [idxNoReqGradAux, if_neg ha]
        rw [hsh]
        exact ih (k + 1) j'

theorem adapterDetachMap_get? (noreq : List Nat) :
    ∀ (l : List Inp) (k j : Nat),
      (adapterDetachMap noreq k l).get? j =
        (l.get? j).map (fun a => if noreq.contains (k + j) then a.detach else a) := by
  intro l
  induction l with
  | nil => intro k j; simp [adapterDetachMap]
  | cons a rest ih =>
    intro k j
    cases j with
    | zero => simp [adapterDetachMap]
    | succ j' =>
      simp only [adapterDetachMap, List.get?]
      rw [ih (k + 1) j']
      have : k + (j' + 1) = (k + 1) + j' := by omega
      rw [this]

theorem applyVals_get? (args : List Inp) (j : Nat) :
    (applyAutogradFunctionToSaveInputsVals args).get? j =
      (args.get? j).map (fun a => if a.noReqGradFloating then a.detach else a) := by
  rw [applyAutogradFunctionToSaveInputsVals, adapterDetachMap_get?]
  cases hj : args.get? j with
  | none => simp
  | some a =>
    simp only [Option.map_some']
    have hmem : (j ∈ idx_no_req_grad args) ↔ a.noReqGradFloating = true := by
      have := idxNoReqGradAux_mem args 0 j
      rw [Nat.zero_add] at this
      rw [idx_no_req_grad, this, hj]
      simp
    have hcon : (idx_no_req_grad args).contains (0 + j) = a.noReqGradFloating := by
      rw [Nat.zero_add]
      by_cases hb : a.noReqGradFloating
      · rw [hb]
        exact List.elem_iff.mpr (hmem.mpr hb)
      · have hb' : a.noReqGradFloating = false := Bool.eq_false_iff.mpr hb
        rw [hb']
        by_contra hc
        rw [Bool.not_eq_false] at hc
        exact hb (hmem.mp (List.elem_iff.mp hc))
    rw [hcon]

theorem adapterDetachMap_length (noreq : List Nat) :
    ∀ (l : List Inp) (k : Nat), (adapterDetachMap noreq k l).length = l.length := by
  intro l
  induction l with
  | nil => intro k; simp [adapterDetachMap]
  | cons a rest ih => intro k; simp [adapterDetachMap, ih]

/-- Claim C8: the nested-input adapter returns its inputs unmodified
except for gradient-tracking adjustment — a floating/complex tensor input
without `requires_grad` comes back detached from the graph, every other
input (tensor already requiring grad, non-floating non-complex tensor, or
non-tensor) comes back as-is, and no position's `requires_grad` flag is
changed, so the adapter never spuriously enables gradient tracking. -/
theorem adapter_preserves_requires_grad (args : List Inp) :
    (applyAutogradFunctionToSaveInputsVals args).length = args.length
  ∧ (∀ j t, args.get? j = some (Inp.tensor t) → t.fc = true → t.requiresGrad = false →
      (applyAutogradFunctionToSaveInputsVals args).get? j = some (Inp.tensor t.detach))
  ∧ (∀ j t, args.get? j = some (Inp.tensor t) → (t.fc = false ∨ t.requiresGrad = true) →
      (applyAutogradFunctionToSaveInputsVals args).get? j = some (Inp.tensor t))
  ∧ (∀ j n, args.get? j = some (Inp.other n) →
      (applyAutogradFunctionToSaveInputsVals args).get? j = some (Inp.other n))
  ∧ (∀ j, ((applyAutogradFunctionToSaveInputsVals args).get? j).map Inp.requiresGradB =
      (args.get? j).map Inp.requiresGradB) := by
  refine ⟨?_, ?_, ?_, ?_, ?_⟩
  · rw [applyAutogradFunctionToSaveInputsVals, adapterDetachMap_length]
  · intro j t hj hfc hrg
    rw [applyVals_get?, hj]
    simp [Inp.noReqGradFloating, hfc, hrg, Inp.detach]
  · intro j t hj hor
    rw [applyVals_get?, hj]
    rcases hor with h | h <;> simp [Inp.noReqGradFloating, h]
  · intro j n hj
    rw [applyVals_get?, hj]
    simp [Inp.noReqGradFloating]
  · intro j
    rw [applyVals_get?]
    cases hj : args.get? j with
    | none => simp
    | some a =>
      simp only [Option.map_some']
      cases a with
      | tensor t =>
        by_cases hb : (Inp.tensor t).noReqGradFloating
        · have : t.requiresGrad = false := by
            simp [Inp.noReqGradFloating] at hb
            exact hb.1
          simp [hb, Inp.detach, Inp.requiresGradB, Tensor.detach, this]
        · simp [hb, Inp.requiresGradB]
      | other n => simp [Inp.noReqGradFloating, Inp.requiresGradB]

/-- Witness for C8 at a concrete input: a non-requires-grad floating
tensor is detached by the adapter. -/
theorem adapter_preserves_requires_grad_witness :
    (applyAutogradFunctionToSaveInputsVals [Inp.tensor demoTensor]).get? 0 =
      some (Inp.tensor demoTensor.detach) :=
  (adapter_preserves_requires_grad [Inp.tensor demoTensor]).2.1 0 demoTensor rfl rfl rfl

/-- Claim C6: an outer-interceptor save allocates a new Handle wrapped in
a new Holder, appends a weak reference to that Holder to the innermost
frame's `weak_holders`, and returns as the stored placeholder the Holder
paired with the snapshot of the current stack entry's frame sequence
(index 0 outermost, last innermost); the saved tensor itself is never
stored — the hook's result is the same for every input value. -/
theorem outer_pack_save_characterization (s : St) (cur : List Nat × Bool)
    (topFid : Nat) (fr : Frame) (x : Tensor)
    (h1 : s.cstacks.getLast? = some cur) (h2 : cur.1.getLast? = some topFid)
    (h3 : alook topFid s.frames = some fr) :
    checkpoint_pack_hook x s =
      (Except.ok (s.nextHolder, cur.1),
       { s with
           holders := (s.nextHolder, some s.nextHandle) :: s.holders,
           frames := aset topFid
             { fr with weak_holders := fr.weak_holders ++ [s.nextHolder] } s.frames,
           nextHandle := s.nextHandle + 1,
           nextHolder := s.nextHolder + 1 })
  ∧ alook s.nextHolder (checkpoint_pack_hook x s).2.holders = some (some s.nextHandle)
  ∧ (∀ fr', alook topFid (checkpoint_pack_hook x s).2.frames = some fr' →
       fr'.weak_holders = fr.weak_holders ++ [s.nextHolder])
  ∧ (∀ y : Tensor, checkpoint_pack_hook y s = checkpoint_pack_hook x s) := by
  have heq : checkpoint_pack_hook x s =
      (Except.ok (s.nextHolder, cur.1),
       { s with
           holders := (s.nextHolder, some s.nextHandle) :: s.holders,
           frames := aset topFid
             { fr with weak_holders := fr.weak_holders ++ [s.nextHolder] } s.frames,
           nextHandle := s.nextHandle + 1,
           nextHolder := s.nextHolder + 1 }) := by
    simp only [checkpoint_pack_hook, h1, h2, h3]
  refine ⟨heq, ?_, ?_, ?_⟩
  · rw [heq]
    simp [alook]
  · intro fr' hfr'
    rw [heq] at hfr'
    simp only at hfr'
    rw [alook_aset_self] at hfr'
    cases hfr'
    rfl
  · intro y
    rw [heq]
    simp only [checkpoint_pack_hook, h1, h2, h3]

/-- Witness for C6 at a concrete state: the save stores the freshly
allocated handle in the freshly allocated holder. -/
theorem outer_pack_save_characterization_witness :
    alook demoPackSt.nextHolder (checkpoint_pack_hook demoTensor demoPackSt).2.holders
      = some (some demoPackSt.nextHandle) :=
  (outer_pack_save_characterization demoPackSt ([0], false) 0 demoFrame demoTensor
    rfl rfl rfl).2.1

theorem innerPack_eq_dead (fid gid : Nat) (x : Tensor) (s : St) (fr : Frame) (hid : Nat)
    (hfr : alook fid s.frames = some fr)
    (hidx : fr.weak_holders.get? (alookD fr.recomp_counter gid 0) = some hid)
    (hdead : alook hid s.holders = none) :
    recomputation_pack_hook fid gid x s =
      (if s.earlyStop && (alookD fr.recomp_counter gid 0 + 1 == fr.weak_holders.length)
         then Except.error Err.stop else Except.ok x.detach,
       { s with
           frames := aset fid
             { fr with
                 recomp_counter :=
                   aset gid (alookD fr.recomp_counter gid 0 + 1) fr.recomp_counter }
             s.frames }) := by
  simp only [recomputation_pack_hook, hfr, hidx, hdead]
  by_cases hstop :
      (s.earlyStop && (alookD fr.recomp_counter gid 0 + 1 == fr.weak_holders.length)) = true
  · simp [hstop]
  · simp [hstop]

theorem innerPack_eq_live_some (fid gid : Nat) (x : Tensor) (s : St) (fr : Frame)
    (hid h : Nat)
    (hfr : alook fid s.frames = some fr)
    (hidx : fr.weak_holders.get? (alookD fr.recomp_counter gid 0) = some hid)
    (hlive : alook hid s.holders = some (some h)) :
    recomputation_pack_hook fid gid x s =
      (if s.earlyStop && (alookD fr.recomp_counter gid 0 + 1 == fr.weak_holders.length)
         then Except.error Err.stop else Except.ok x.detach,
       { s with
           frames := aset fid
             { fr with
                 recomp_counter :=
                   aset gid (alookD fr.recomp_counter gid 0 + 1) fr.recomp_counter,
                 recomputed :=
                   aset gid
                     (aset h
                       (if fr.child_args_idx.contains (alookD fr.recomp_counter gid 0)
                          then x else x.detach)
                       (alookD fr.recomputed gid []))
                     fr.recomputed }
             s.frames }) := by
  simp only [recomputation_pack_hook, hfr, hidx, hlive]
  by_cases hstop :
      (s.earlyStop && (alookD fr.recomp_counter gid 0 + 1 == fr.weak_holders.length)) = true
  · simp [hstop]
  · simp [hstop]

theorem innerPack_eq_live_none (fid gid : Nat) (x : Tensor) (s : St) (fr : Frame)
    (hid : Nat)
    (hfr : alook fid s.frames = some fr)
    (hidx : fr.weak_holders.get? (alookD fr.recomp_counter gid 0) = some hid)
    (hlive : alook hid s.holders = some none) :
    recomputation_pack_hook fid gid x s =
      (if s.earlyStop && (alookD fr.recomp_counter gid 0 + 1 == fr.weak_holders.length)
         then Except.error Err.stop else Except.ok x.detach,
       { s with
           frames := aset fid
             { fr with
                 recomp_counter :=
                   aset gid (alookD fr.recomp_counter gid 0 + 1) fr.recomp_counter,
                 recomputed :=
                   aset gid
                     (aset s.nextHandle
                       (if fr.child_args_idx.contains (alookD fr.recomp_counter gid 0)
                          then x else x.detach)
                       (alookD fr.recomputed gid []))
                     fr.recomputed }
             s.frames,
           holders := aset hid (some s.nextHandle) s.holders,
           nextHandle := s.nextHandle + 1 }) := by
  simp only [recomputation_pack_hook, hfr, hidx, hlive]
  by_cases hstop :
      (s.earlyStop && (alookD fr.recomp_counter gid 0 + 1 == fr.weak_holders.length)) = true
  · simp [hstop]
  · simp [hstop]

/-- Claim C5: an inner-interceptor save increments the frame's per-gid
counter and indexes `weak_holders` at the counter's pre-increment value;
a dead weak reference records nothing; a live holder whose handle was
cleared gets a fresh handle; the recorded value is the tensor itself at a
delegated child-input position and a detached copy otherwise; and the
value handed back to the replayed graph builder is always a detached copy
(unless the early-stop signal is raised instead). -/
theorem inner_pack_save_characterization (fid gid : Nat) (x : Tensor) (s : St)
    (fr : Frame) (hid : Nat)
    (hfr : alook fid s.frames = some fr)
    (hidx : fr.weak_holders.get? (alookD fr.recomp_counter gid 0) = some hid) :
    (∃ fr', alook fid (recomputation_pack_hook fid gid x s).2.frames = some fr' ∧
        alookD fr'.recomp_counter gid 0 = alookD fr.recomp_counter gid 0 + 1)
  ∧ (alook hid s.holders = none →
      (recomputation_pack_hook fid gid x s).2.holders = s.holders ∧
      ∀ fr', alook fid (recomputation_pack_hook fid gid x s).2.frames = some fr' →
        fr'.recomputed = fr.recomputed)
  ∧ (alook hid s.holders = some none →
      alook hid (recomputation_pack_hook fid gid x s).2.holders = some (some s.nextHandle) ∧
      ∀ fr', alook fid (recomputation_pack_hook fid gid x s).2.frames = some fr' →
        alook s.nextHandle (alookD fr'.recomputed gid []) =
          some (if fr.child_args_idx.contains (alookD fr.recomp_counter gid 0) then x
                else x.detach))
  ∧ (∀ h, alook hid s.holders = some (some h) →
      ∀ fr', alook fid (recomputation_pack_hook fid gid x s).2.frames = some fr' →
        alook h (alookD fr'.recomputed gid []) =
          some (if fr.child_args_idx.contains (alookD fr.recomp_counter gid 0) then x
                else x.detach))
  ∧ (recomputation_pack_hook fid gid x s).1 =
      (if s.earlyStop && (alookD fr.recomp_counter gid 0 + 1 == fr.weak_holders.length)
         then Except.error Err.stop else Except.ok x.detach) := by
  cases hh : alook hid s.holders with
  | none =>
    have heq := innerPack_eq_dead fid gid x s fr hid hfr hidx hh
    refine ⟨?_, ?_, ?_, ?_, ?_⟩
    · refine ⟨_, by rw [heq]; exact alook_aset_self _ _ _, ?_⟩
      simp [alookD_aset_self]
    · intro _
      constructor
      · rw [heq]
      · intro fr' hfr'
        rw [heq] at hfr'
        rw [alook_aset_self] at hfr'
        cases hfr'
        rfl
    · intro hcontra; exact Option.noConfusion hcontra
    · intro h hcontra; exact Option.noConfusion hcontra
    · rw [heq]
  | some hOpt =>
    cases hOpt with
    | none =>
      have heq := innerPack_eq_live_none fid gid x s fr hid hfr hidx hh
      refine ⟨?_, ?_, ?_, ?_, ?_⟩
      · refine ⟨_, by rw [heq]; exact alook_aset_self _ _ _, ?_⟩
        simp [alookD_aset_self]
      · intro hcontra; exact Option.noConfusion hcontra
      · intro _
        constructor
        · rw [heq]
          exact alook_aset_self _ _ _
        · intro fr' hfr'
          rw [heq] at hfr'
          rw [alook_aset_self] at hfr'
          cases hfr'
          simp only
          rw [alookD_aset_self, alook_aset_self]
      · intro h hcontra; simp at hcontra
      · rw [heq]
    | some h0 =>
      have heq := innerPack_eq_live_some fid gid x s fr hid h0 hfr hidx hh
      refine ⟨?_, ?_, ?_, ?_, ?_⟩
      · refine ⟨_, by rw [heq]; exact alook_aset_self _ _ _, ?_⟩
        simp [alookD_aset_self]
      · intro hcontra; simp at hcontra
      · intro hcontra; simp at hcontra
      · intro h hh2 fr' hfr'
        have hh3 : h0 = h := by simpa using hh2
        subst hh3
        rw [heq] at hfr'
        rw [alook_aset_self] at hfr'
        cases hfr'
        simp only
        rw [alookD_aset_self, alook_aset_self]
      · rw [heq]

/-- Witness for C5 at a concrete state: frame 0's counter for gid 3 goes
from 0 to 1 after one inner save. -/
theorem inner_pack_save_characterization_witness :
    ∃ fr', alook 0 (recomputation_pack_hook 0 3 demoTensor demoSt).2.frames = some fr' ∧
      alookD fr'.recomp_counter 3 0 = alookD demoFrame.recomp_counter 3 0 + 1 :=
  (inner_pack_save_characterization 0 3 demoTensor demoSt demoFrame 0 rfl rfl).1

/-- Claim C2: after the recompute loop of a restore succeeds, the restore
fails with the double-consumption error when the Holder's handle is `none`
(consumed earlier and not refreshed by an intervening recomputation),
fails with the missing-recomputed-value error when the handle has no entry
in the innermost frame's per-gid cache, and otherwise clears the Holder's
handle and returns the cached value. -/
theorem unpack_error_taxonomy (s s1 : St) (hid topFid : Nat) (fl : List Nat)
    (htop : fl.getLast? = some topFid)
    (hrun : processFrames (selectGid s).1 fl (selectGid s).2 = (Except.ok (), s1)) :
    (alook hid s1.holders = some none →
       checkpoint_unpack_hook (hid, fl) s = (Except.error Err.doubleConsumption, s1))
  ∧ (∀ h, alook hid s1.holders = some (some h) →
       ∀ topFr, alook topFid s1.frames = some topFr →
         (alook h (alookD topFr.recomputed (selectGid s).1 []) = none →
            checkpoint_unpack_hook (hid, fl) s = (Except.error Err.missingRecomputed, s1))
       ∧ (∀ v, alook h (alookD topFr.recomputed (selectGid s).1 []) = some v →
            checkpoint_unpack_hook (hid, fl) s =
              (Except.ok v, { s1 with holders := aset hid none s1.holders }))) := by
  have hbase : checkpoint_unpack_hook (hid, fl) s =
      (match alook hid s1.holders with
       | none => (Except.error Err.assertFail, s1)
       | some none => (Except.error Err.doubleConsumption, s1)
       | some (some h) =>
         match alook topFid s1.frames with
         | none => (Except.error Err.assertFail, s1)
         | some topFr =>
           match alook h (alookD topFr.recomputed (selectGid s).1 []) with
           | none => (Except.error Err.missingRecomputed, s1)
           | some v => (Except.ok v, { s1 with holders := aset hid none s1.holders })) := by
    rw [checkpoint_unpack_hook]
    simp only [htop, hrun]
  constructor
  · intro hnone
    rw [hbase]
    simp only [hnone]
  · intro h hsome topFr htf
    constructor
    · intro hmiss
      rw [hbase]
      simp only [hsome, htf, hmiss]
    · intro v hv
      rw [hbase]
      simp only [hsome, htf, hv]

/-- Witness for C2 at a concrete state: the success path of a restore
returns the cached value and clears the holder's handle. -/
theorem unpack_error_taxonomy_witness :
    checkpoint_unpack_hook (0, [0]) demoSt =
      (Except.ok demoTensor.detach, { demoMid with holders := aset 0 none demoMid.holders }) :=
  ((unpack_error_taxonomy demoSt demoMid 0 0 [0] rfl rfl).2 0 rfl demoMidFrame
    rfl).2 demoTensor.detach rfl

theorem innerPack_eq_nofr (fid gid : Nat) (x : Tensor) (s : St)
    (hfr : alook fid s.frames = none) :
    recomputation_pack_hook fid gid x s = (Except.error Err.assertFail, s) := by
  simp only [recomputation_pack_hook, hfr]

theorem innerPack_eq_noidx (fid gid : Nat) (x : Tensor) (s : St) (fr : Frame)
    (hfr : alook fid s.frames = some fr)
    (hidx : fr.weak_holders.get? (alookD fr.recomp_counter gid 0) = none) :
    recomputation_pack_hook fid gid x s =
      (Except.error Err.indexError,
       { s with
           frames := aset fid
             { fr with
                 recomp_counter :=
                   aset gid (alookD fr.recomp_counter gid 0 + 1) fr.recomp_counter }
             s.frames }) := by
  simp only [recomputation_pack_hook, hfr, hidx]

theorem innerPack_writes (fid gid : Nat) (x : Tensor) (s : St) :
    (recomputation_pack_hook fid gid x s).2.cstacks = s.cstacks ∧
    (recomputation_pack_hook fid gid x s).2.hooks = s.hooks ∧
    (recomputation_pack_hook fid gid x s).2.gradMode = s.gradMode ∧
    (recomputation_pack_hook fid gid x s).2.earlyStop = s.earlyStop ∧
    (recomputation_pack_hook fid gid x s).2.ambientGid = s.ambientGid ∧
    (recomputation_pack_hook fid gid x s).2.nextHolder = s.nextHolder ∧
    (recomputation_pack_hook fid gid x s).2.nextFrame = s.nextFrame ∧
    (recomputation_pack_hook fid gid x s).2.nextUuid = s.nextUuid ∧
    (recomputation_pack_hook fid gid x s).2.log = s.log := by
  cases halook : alook fid s.frames with
  | none => rw [innerPack_eq_nofr fid gid x s halook]; simp
  | some fr =>
    cases hidx : fr.weak_holders.get? (alookD fr.recomp_counter gid 0) with
    | none => rw [innerPack_eq_noidx fid gid x s fr halook hidx]; simp
    | some hid =>
      cases hh : alook hid s.holders with
      | none => rw [innerPack_eq_dead fid gid x s fr hid halook hidx hh]; simp
      | some hOpt =>
        cases hOpt with
        | none => rw [innerPack_eq_live_none fid gid x s fr hid halook hidx hh]; simp
        | some h0 => rw [innerPack_eq_live_some fid gid x s fr hid h0 halook hidx hh]; simp

theorem countInvoc_append (fid gid : Nat) (l1 l2 : List Invoc) :
    countInvoc fid gid (l1 ++ l2) = countInvoc fid gid l1 + countInvoc fid gid l2 := by
  simp [countInvoc, List.filter_append]

theorem innerPack_frames_other (fid gid : Nat) (x : Tensor) (s : St) (f : Nat)
    (hf : ¬f = fid) :
    alook f (recomputation_pack_hook fid gid x s).2.frames = alook f s.frames := by
  have hne : fid ≠ f := fun h => hf h.symm
  cases halook : alook fid s.frames with
  | none => rw [innerPack_eq_nofr fid gid x s halook]
  | some fr =>
    cases hidx : fr.weak_holders.get? (alookD fr.recomp_counter gid 0) with
    | none =>
      rw [innerPack_eq_noidx fid gid x s fr halook hidx]
      exact alook_aset_ne hne _ _
    | some hid =>
      cases hh : alook hid s.holders with
      | none =>
        rw [innerPack_eq_dead fid gid x s fr hid halook hidx hh]
        exact alook_aset_ne hne _ _
      | some hOpt =>
        cases hOpt with
        | none =>
          rw [innerPack_eq_live_none fid gid x s fr hid halook hidx hh]
          exact alook_aset_ne hne _ _
        | some h0 =>
          rw [innerPack_eq_live_some fid gid x s fr hid h0 halook hidx hh]
          exact alook_aset_ne hne _ _

theorem innerPack_frame_self (fid gid : Nat) (x : Tensor) (s : St) (fr : Frame)
    (hfr : alook fid s.frames = some fr) :
    ∃ fr', alook fid (recomputation_pack_hook fid gid x s).2.frames = some fr' ∧
      fr'.recompute_fn = fr.recompute_fn ∧
      fr'.weak_holders = fr.weak_holders ∧
      fr'.is_recomputed = fr.is_recomputed ∧
      fr'.maybe_args = fr.maybe_args ∧
      fr'.args_idx = fr.args_idx ∧
      fr'.child_args_idx = fr.child_args_idx := by
  cases hidx : fr.weak_holders.get? (alookD fr.recomp_counter gid 0) with
  | none =>
    rw [innerPack_eq_noidx fid gid x s fr hfr hidx]
    exact ⟨_, alook_aset_self _ _ _, rfl, rfl, rfl, rfl, rfl, rfl⟩
  | some hid =>
    cases hh : alook hid s.holders with
    | none =>
      rw [innerPack_eq_dead fid gid x s fr hid hfr hidx hh]
      exact ⟨_, alook_aset_self _ _ _, rfl, rfl, rfl, rfl, rfl, rfl⟩
    | some hOpt =>
      cases hOpt with
      | none =>
        rw [innerPack_eq_live_none fid gid x s fr hid hfr hidx hh]
        exact ⟨_, alook_aset_self _ _ _, rfl, rfl, rfl, rfl, rfl, rfl⟩
      | some h0 =>
        rw [innerPack_eq_live_some fid gid x s fr hid h0 hfr hidx hh]
        exact ⟨_, alook_aset_self _ _ _, rfl, rfl, rfl, rfl, rfl, rfl⟩

theorem innerPack_recFlag (fid gid : Nat) (x : Tensor) (s : St) (f g : Nat) :
    recFlag (recomputation_pack_hook fid gid x s).2 f g = recFlag s f g := by
  by_cases hf : f = fid
  · subst hf
    cases halook : alook f s.frames with
    | none => rw [recFlag, recFlag, innerPack_eq_nofr f gid x s halook, halook]
    | some fr =>
      obtain ⟨fr', hget, _, _, hisrec, _, _, _⟩ :=
        innerPack_frame_self f gid x s fr halook
      rw [recFlag, recFlag, hget, halook]
      simp only [hisrec]
  · rw [recFlag, recFlag, innerPack_frames_other fid gid x s f hf]

theorem innerPack_frames_isSome (fid gid : Nat) (x : Tensor) (s : St) (f : Nat) :
    (alook f (recomputation_pack_hook fid gid x s).2.frames).isSome =
      (alook f s.frames).isSome := by
  by_cases hf : f = fid
  · subst hf
    cases halook : alook f s.frames with
    | none => rw [innerPack_eq_nofr f gid x s halook, halook]
    | some fr =>
      obtain ⟨fr', hget, _⟩ := innerPack_frame_self f gid x s fr halook
      rw [hget]
      rfl
  · rw [innerPack_frames_other fid gid x s f hf]

theorem saveLoop_writes (fid gid : Nat) :
    ∀ (xs : List Tensor) (s : St),
    (saveLoop fid gid xs s).2.cstacks = s.cstacks ∧
    (saveLoop fid gid xs s).2.hooks = s.hooks ∧
    (saveLoop fid gid xs s).2.gradMode = s.gradMode ∧
    (saveLoop fid gid xs s).2.earlyStop = s.earlyStop ∧
    (saveLoop fid gid xs s).2.ambientGid = s.ambientGid ∧
    (saveLoop fid gid xs s).2.nextUuid = s.nextUuid ∧
    (saveLoop fid gid xs s).2.log = s.log ∧
    (∀ f g, recFlag (saveLoop fid gid xs s).2 f g = recFlag s f g) ∧
    (∀ f, (alook f (saveLoop fid gid xs s).2.frames).isSome = (alook f s.frames).isSome) := by
  intro xs
  induction xs with
  | nil =>
    intro s
    exact ⟨rfl, rfl, rfl, rfl, rfl, rfl, rfl, fun f g => rfl, fun f => rfl⟩
  | cons x xs ih =>
    intro s
    have hw := innerPack_writes fid gid x s
    have hflag := innerPack_recFlag fid gid x s
    have hsome := innerPack_frames_isSome fid gid x s
    simp only [saveLoop]
    cases hr : recomputation_pack_hook fid gid x s with
    | mk r s' =>
      rw [hr] at hw hflag hsome
      cases r with
      | ok a =>
        simp only
        obtain ⟨c1, c2, c3, c4, c5, c6, c7, c8, c9⟩ := ih s'
        exact ⟨c1.trans hw.1, c2.trans hw.2.1, c3.trans hw.2.2.1, c4.trans hw.2.2.2.1,
               c5.trans hw.2.2.2.2.1, c6.trans hw.2.2.2.2.2.2.2.1,
               c7.trans hw.2.2.2.2.2.2.2.2,
               fun f g => (c8 f g).trans (hflag f g),
               fun f => (c9 f).trans (hsome f)⟩
      | error e =>
        exact ⟨hw.1, hw.2.1, hw.2.2.1, hw.2.2.2.1, hw.2.2.2.2.1,
               hw.2.2.2.2.2.2.2.1, hw.2.2.2.2.2.2.2.2, hflag, hsome⟩

theorem ite_snd {α β : Type} (c : Prop) [Decidable c] (a b : α) (s : β) :
    (if c then (a, s) else (b, s)).2 = s := by
  split <;> rfl

theorem runRecompute_nofr (fid gid : Nat) (args : List Inp) (s : St)
    (hfr : alook fid s.frames = none) :
    runRecompute fid gid args s = (Except.error Err.assertFail, s) := by
  simp only [runRecompute, hfr]

theorem runRecompute_effects (fid gid : Nat) (args : List Inp) (s : St) (fr : Frame)
    (hfr : alook fid s.frames = some fr) :
    (runRecompute fid gid args s).2.log =
      s.log ++ [{ fid := fid, gid := gid, args := args, gradMode := s.gradMode,
                  hook := s.hooks.head? }] ∧
    (∀ f g, recFlag (runRecompute fid gid args s).2 f g = recFlag s f g) ∧
    (∀ f, (alook f (runRecompute fid gid args s).2.frames).isSome =
       (alook f s.frames).isSome) ∧
    (runRecompute fid gid args s).2.cstacks = s.cstacks ∧
    (runRecompute fid gid args s).2.hooks = s.hooks ∧
    (runRecompute fid gid args s).2.gradMode = s.gradMode ∧
    (runRecompute fid gid args s).2.earlyStop = s.earlyStop ∧
    (runRecompute fid gid args s).2.ambientGid = s.ambientGid ∧
    (runRecompute fid gid args s).2.nextUuid = s.nextUuid := by
  simp only [runRecompute, hfr]
  have hsw := saveLoop_writes fid gid (fr.recompute_fn args)
    { s with log := s.log ++ [⟨fid, gid, args, s.gradMode, s.hooks.head?⟩] }
  cases hr : saveLoop fid gid (fr.recompute_fn args)
    { s with log := s.log ++ [⟨fid, gid, args, s.gradMode, s.hooks.head?⟩] } with
  | mk r s2 =>
    rw [hr] at hsw
    obtain ⟨c1, c2, c3, c4, c5, c6, c7, c8, c9⟩ := hsw
    cases r with
    | ok a =>
      simp only [ite_snd]
      exact ⟨c7, c8, c9, c1, c2, c3, c4, c5, c6⟩
    | error e =>
      exact ⟨c7, c8, c9, c1, c2, c3, c4, c5, c6⟩

theorem recomputeUnderHook_effects (fid gid : Nat) (args : List Inp) (s : St) (fr : Frame)
    (hfr : alook fid s.frames = some fr) :
    (recomputeUnderHook fid gid args s).2.log =
      s.log ++ [{ fid := fid, gid := gid, args := args, gradMode := true,
                  hook := some (Hook.inner fid gid) }] ∧
    (∀ f g, recFlag (recomputeUnderHook fid gid args s).2 f g = recFlag s f g) ∧
    (∀ f, (alook f (recomputeUnderHook fid gid args s).2.frames).isSome =
       (alook f s.frames).isSome) ∧
    (recomputeUnderHook fid gid args s).2.cstacks = s.cstacks ∧
    (recomputeUnderHook fid gid args s).2.hooks = s.hooks ∧
    (recomputeUnderHook fid gid args s).2.gradMode = s.gradMode ∧
    (recomputeUnderHook fid gid args s).2.earlyStop = s.earlyStop ∧
    (recomputeUnderHook fid gid args s).2.ambientGid = s.ambientGid ∧
    (recomputeUnderHook fid gid args s).2.nextUuid = s.nextUuid := by
  have hre := runRecompute_effects fid gid args
    { s with hooks := Hook.inner fid gid :: s.hooks, gradMode := true } fr hfr
  obtain ⟨c1, c2, c3, c4, c5, c6, c7, c8, c9⟩ := hre
  refine ⟨c1, c2, c3, c4, ?_, rfl, c7, c8, c9⟩
  show (runRecompute fid gid args
      { s with hooks := Hook.inner fid gid :: s.hooks, gradMode := true }).2.hooks.tail
    = s.hooks
  rw [c5]
  rfl

theorem tryRecompute_effects (fid gid : Nat) (args : List Inp) (s : St) (fr : Frame)
    (hfr : alook fid s.frames = some fr) :
    (tryRecompute fid gid args s).2.log =
      s.log ++ [{ fid := fid, gid := gid, args := args, gradMode := true,
                  hook := some (Hook.inner fid gid) }] ∧
    (∀ f g, recFlag (tryRecompute fid gid args s).2 f g = recFlag s f g) ∧
    (∀ f, (alook f (tryRecompute fid gid args s).2.frames).isSome =
       (alook f s.frames).isSome) ∧
    (tryRecompute fid gid args s).2.hooks = s.hooks ∧
    (tryRecompute fid gid args s).2.gradMode = s.gradMode ∧
    (tryRecompute fid gid args s).2.earlyStop = s.earlyStop ∧
    (tryRecompute fid gid args s).2.ambientGid = s.ambientGid ∧
    (tryRecompute fid gid args s).2.nextUuid = s.nextUuid := by
  have hre := recomputeUnderHook_effects fid gid args
    { s with cstacks := s.cstacks ++ [([], true)] } fr hfr
  obtain ⟨c1, c2, c3, c4, c5, c6, c7, c8, c9⟩ := hre
  simp only [tryRecompute]
  cases hr : recomputeUnderHook fid gid args { s with cstacks := s.cstacks ++ [([], true)] } with
  | mk r s2 =>
    rw [hr] at c1 c2 c3 c4 c5 c6 c7 c8 c9
    cases r with
    | ok a => exact ⟨c1, c2, c3, c5, c6, c7, c8, c9⟩
    | error e =>
      cases e with
      | stop => exact ⟨c1, c2, c3, c5, c6, c7, c8, c9⟩
      | doubleConsumption => exact ⟨c1, c2, c3, c5, c6, c7, c8, c9⟩
      | missingRecomputed => exact ⟨c1, c2, c3, c5, c6, c7, c8, c9⟩
      | assertFail => exact ⟨c1, c2, c3, c5, c6, c7, c8, c9⟩
      | indexError => exact ⟨c1, c2, c3, c5, c6, c7, c8, c9⟩
      | keyError => exact ⟨c1, c2, c3, c5, c6, c7, c8, c9⟩

theorem tryRecompute_nofr (fid gid : Nat) (args : List Inp) (s : St)
    (hfr : alook fid s.frames = none) :
    tryRecompute fid gid args s =
      (Except.error Err.assertFail, { s with cstacks := s.cstacks ++ [([], true)] }) := by
  simp only [tryRecompute, recomputeUnderHook,
    runRecompute_nofr fid gid args
      { s with cstacks := s.cstacks ++ [([], true)],
               hooks := Hook.inner fid gid :: s.hooks, gradMode := true } hfr,
    List.tail_cons]

theorem markRecomputed_effects (fid gid : Nat) (s : St) :
    (markRecomputed fid gid s).log = s.log ∧
    (markRecomputed fid gid s).cstacks = s.cstacks ∧
    (markRecomputed fid gid s).hooks = s.hooks ∧
    (markRecomputed fid gid s).gradMode = s.gradMode ∧
    (markRecomputed fid gid s).earlyStop = s.earlyStop ∧
    (markRecomputed fid gid s).ambientGid = s.ambientGid ∧
    (markRecomputed fid gid s).nextUuid = s.nextUuid ∧
    (∀ f g, ¬(f = fid ∧ g = gid) → recFlag (markRecomputed fid gid s) f g = recFlag s f g) ∧
    ((alook fid s.frames).isSome = true → recFlag (markRecomputed fid gid s) fid gid = true) ∧
    (∀ f g, recFlag s f g = true → recFlag (markRecomputed fid gid s) f g = true) := by
  cases hfr : alook fid s.frames with
  | none =>
    have heq : markRecomputed fid gid s = s := by simp only [markRecomputed, hfr]
    rw [heq]
    refine ⟨rfl, rfl, rfl, rfl, rfl, rfl, rfl, fun f g _ => rfl, ?_, fun f g h => h⟩
    intro h
    simp at h
  | some fr =>
    have heq : markRecomputed fid gid s =
        { s with
            frames :=
              aset fid { fr with is_recomputed := aset gid true fr.is_recomputed } s.frames } := by
      simp only [markRecomputed, hfr]
    rw [heq]
    refine ⟨rfl, rfl, rfl, rfl, rfl, rfl, rfl, ?_, ?_, ?_⟩
    · intro f g hne
      by_cases hf : f = fid
      · subst hf
        have hg : ¬g = gid := fun hg => hne ⟨rfl, hg⟩
        rw [recFlag, recFlag]
        simp only [alook_aset_self, hfr]
        rw [alookD_aset_ne (fun h => hg h.symm)]
      · rw [recFlag, recFlag]
        simp only [alook_aset_ne (fun h => hf h.symm)]
    · intro _
      rw [recFlag]
      simp only [alook_aset_self]
      rw [alookD_aset_self]
    · intro f g h
      by_cases hf : f = fid
      · subst hf
        rw [recFlag] at h ⊢
        rw [hfr] at h
        simp only [alook_aset_self]
        by_cases hg : g = gid
        · subst hg
          rw [alookD_aset_self]
        · rw [alookD_aset_ne (fun hx => hg hx.symm)]
          exact h
      · rw [recFlag] at h ⊢
        simp only [alook_aset_ne (fun hx => hf hx.symm)]
        exact h

theorem gafp_state (fid pfid gid : Nat) (s : St) :
    (get_args_from_parent fid pfid gid s).2 = s := by
  cases h1 : alook fid s.frames with
  | none => simp only [get_args_from_parent, h1]
  | some fr =>
    cases h2 : alook pfid s.frames with
    | none => simp only [get_args_from_parent, h1, h2]
    | some pfr =>
      cases h3 : fr.args_idx with
      | none => simp only [get_args_from_parent, h1, h2, h3]
      | some idxs => simp only [get_args_from_parent, h1, h2, h3]

theorem processOne_eq_noget (gid : Nat) (fl : List Nat) (i : Nat) (s : St)
    (hget : fl.get? i = none) :
    processOneFrame gid fl i s = (Except.error Err.indexError, s) := by
  simp only [processOneFrame, hget]

theorem processOne_eq_nofr (gid : Nat) (fl : List Nat) (i : Nat) (s : St) (fid : Nat)
    (hget : fl.get? i = some fid) (hfr : alook fid s.frames = none) :
    processOneFrame gid fl i s = (Except.error Err.assertFail, s) := by
  simp only [processOneFrame, hget, hfr]

theorem processOne_eq_skip (gid : Nat) (fl : List Nat) (i : Nat) (s : St) (fid : Nat)
    (fr : Frame) (hget : fl.get? i = some fid) (hfr : alook fid s.frames = some fr)
    (hflag : alookD fr.is_recomputed gid false = true) :
    processOneFrame gid fl i s = (Except.ok (), s) := by
  simp only [processOneFrame, hget, hfr, hflag, if_true]

theorem processOne_eq_run_ma (gid : Nat) (fl : List Nat) (i : Nat) (s : St) (fid : Nat)
    (fr : Frame) (args : List Inp)
    (hget : fl.get? i = some fid) (hfr : alook fid s.frames = some fr)
    (hflag : alookD fr.is_recomputed gid false = false)
    (hma : fr.maybe_args = some args) :
    processOneFrame gid fl i s =
      (match tryRecompute fid gid args s with
       | (Except.ok _, s2) => (Except.ok (), markRecomputed fid gid s2)
       | (Except.error e, s2) => (Except.error e, s2)) := by
  simp only [processOneFrame, hget, hfr, hflag, hma, Bool.false_eq_true, if_false]

theorem processOne_eq_noprev (gid : Nat) (fl : List Nat) (i : Nat) (s : St) (fid : Nat)
    (fr : Frame)
    (hget : fl.get? i = some fid) (hfr : alook fid s.frames = some fr)
    (hflag : alookD fr.is_recomputed gid false = false)
    (hma : fr.maybe_args = none) (hprev : pyPrev fl i = none) :
    processOneFrame gid fl i s = (Except.error Err.indexError, s) := by
  simp only [processOneFrame, hget, hfr, hflag, hma, hprev, Bool.false_eq_true, if_false]

theorem processOne_eq_gafp_err (gid : Nat) (fl : List Nat) (i : Nat) (s s1 : St)
    (fid pfid : Nat) (fr : Frame) (e : Err)
    (hget : fl.get? i = some fid) (hfr : alook fid s.frames = some fr)
    (hflag : alookD fr.is_recomputed gid false = false)
    (hma : fr.maybe_args = none) (hprev : pyPrev fl i = some pfid)
    (hga : get_args_from_parent fid pfid gid s = (Except.error e, s1)) :
    processOneFrame gid fl i s = (Except.error e, s1) := by
  simp only [processOneFrame, hget, hfr, hflag, hma, hprev, hga, Bool.false_eq_true, if_false]

theorem processOne_eq_run_parent (gid : Nat) (fl : List Nat) (i : Nat) (s s1 : St)
    (fid pfid : Nat) (fr : Frame) (args : List Inp)
    (hget : fl.get? i = some fid) (hfr : alook fid s.frames = some fr)
    (hflag : alookD fr.is_recomputed gid false = false)
    (hma : fr.maybe_args = none) (hprev : pyPrev fl i = some pfid)
    (hga : get_args_from_parent fid pfid gid s = (Except.ok args, s1)) :
    processOneFrame gid fl i s =
      (match tryRecompute fid gid args s1 with
       | (Except.ok _, s2) => (Except.ok (), markRecomputed fid gid s2)
       | (Except.error e, s2) => (Except.error e, s2)) := by
  simp only [processOneFrame, hget, hfr, hflag, hma, hprev, hga, Bool.false_eq_true, if_false]

theorem runMatch_effects (gid fid : Nat) (args : List Inp) (s0 : St) (fr : Frame)
    (hfr : alook fid s0.frames = some fr) :
    ((match tryRecompute fid gid args s0 with
      | (Except.ok _, s2) => (Except.ok (), markRecomputed fid gid s2)
      | (Except.error e, s2) => (Except.error e, s2)) : Except Err Unit × St).2.log =
        s0.log ++ [{ fid := fid, gid := gid, args := args, gradMode := true,
                     hook := some (Hook.inner fid gid) }] ∧
    (∀ f g, ¬(f = fid ∧ g = gid) →
      recFlag ((match tryRecompute fid gid args s0 with
        | (Except.ok _, s2) => (Except.ok (), markRecomputed fid gid s2)
        | (Except.error e, s2) => (Except.error e, s2)) : Except Err Unit × St).2 f g
        = recFlag s0 f g) ∧
    (∀ f g, recFlag s0 f g = true →
      recFlag ((match tryRecompute fid gid args s0 with
        | (Except.ok _, s2) => (Except.ok (), markRecomputed fid gid s2)
        | (Except.error e, s2) => (Except.error e, s2)) : Except Err Unit × St).2 f g
        = true) ∧
    (((match tryRecompute fid gid args s0 with
       | (Except.ok _, s2) => (Except.ok (), markRecomputed fid gid s2)
       | (Except.error e, s2) => (Except.error e, s2)) : Except Err Unit × St).1
         = Except.ok () →
      recFlag ((match tryRecompute fid gid args s0 with
        | (Except.ok _, s2) => (Except.ok (), markRecomputed fid gid s2)
        | (Except.error e, s2) => (Except.error e, s2)) : Except Err Unit × St).2 fid gid
        = true) := by
  have htr := tryRecompute_effects fid gid args s0 fr hfr
  obtain ⟨t1, t2, t3, _⟩ := htr
  cases htr2 : tryRecompute fid gid args s0 with
  | mk r s2 =>
    rw [htr2] at t1 t2 t3
    have hm := markRecomputed_effects fid gid s2
    cases r with
    | ok a =>
      refine ⟨hm.1.trans t1, ?_, ?_, ?_⟩
      · intro f g hne
        rw [hm.2.2.2.2.2.2.2.1 f g hne]
        exact t2 f g
      · intro f g hf
        exact hm.2.2.2.2.2.2.2.2.2 f g ((t2 f g).trans hf)
      · intro _
        refine hm.2.2.2.2.2.2.2.2.1 ?_
        rw [t3 fid, hfr]
        rfl
    | error e =>
      refine ⟨t1, fun f g _ => t2 f g, fun f g hf => (t2 f g).trans hf, ?_⟩
      intro hok
      cases hok

theorem processOneFrame_step (gid : Nat) (fl : List Nat) (i : Nat) (s : St) :
    ((processOneFrame gid fl i s).2.log = s.log ∧
       (∀ f g, recFlag (processOneFrame gid fl i s).2 f g = recFlag s f g) ∧
       ((processOneFrame gid fl i s).1 = Except.ok () →
         ∀ fid, fl.get? i = some fid →
           recFlag (processOneFrame gid fl i s).2 fid gid = true))
  ∨ (∃ fid args, fl.get? i = some fid ∧ recFlag s fid gid = false ∧
       (processOneFrame gid fl i s).2.log =
         s.log ++ [{ fid := fid, gid := gid, args := args, gradMode := true,
                     hook := some (Hook.inner fid gid) }] ∧
       (∀ f g, ¬(f = fid ∧ g = gid) →
          recFlag (processOneFrame gid fl i s).2 f g = recFlag s f g) ∧
       (∀ f g, recFlag s f g = true →
          recFlag (processOneFrame gid fl i s).2 f g = true) ∧
       ((processOneFrame gid fl i s).1 = Except.ok () →
         recFlag (processOneFrame gid fl i s).2 fid gid = true)) := by
  cases hget : fl.get? i with
  | none =>
    rw [processOne_eq_noget gid fl i s hget]
    exact Or.inl ⟨rfl, fun f g => rfl, fun hok => Except.noConfusion hok⟩
  | some fid =>
    cases hfr : alook fid s.frames with
    | none =>
      rw [processOne_eq_nofr gid fl i s fid hget hfr]
      exact Or.inl ⟨rfl, fun f g => rfl, fun hok => Except.noConfusion hok⟩
    | some fr =>
      cases hflag : alookD fr.is_recomputed gid false with
      | true =>
        rw [processOne_eq_skip gid fl i s fid fr hget hfr hflag]
        refine Or.inl ⟨rfl, fun f g => rfl, ?_⟩
        intro _ fid' hget'
        cases hget'
        rw [recFlag, hfr]
        exact hflag
      | false =>
        have hflagF : recFlag s fid gid = false := by rw [recFlag, hfr]; exact hflag
        cases hma : fr.maybe_args with
        | some args =>
          rw [processOne_eq_run_ma gid fl i s fid fr args hget hfr hflag hma]
          have hrm := runMatch_effects gid fid args s fr hfr
          refine Or.inr ⟨fid, args, rfl, hflagF, hrm.1, hrm.2.1, hrm.2.2.1, hrm.2.2.2⟩
        | none =>
          cases hprev : pyPrev fl i with
          | none =>
            rw [processOne_eq_noprev gid fl i s fid fr hget hfr hflag hma hprev]
            exact Or.inl ⟨rfl, fun f g => rfl, fun hok => Except.noConfusion hok⟩
          | some pfid =>
            have hgs := gafp_state fid pfid gid s
            cases hga : get_args_from_parent fid pfid gid s with
            | mk ra s1 =>
              rw [hga] at hgs
              simp only at hgs
              subst hgs
              cases ra with
              | error e =>
                rw [processOne_eq_gafp_err gid fl i s1 s1 fid pfid fr e hget hfr hflag
                  hma hprev hga]
                exact Or.inl ⟨rfl, fun f g => rfl, fun hok => Except.noConfusion hok⟩
              | ok args =>
                rw [processOne_eq_run_parent gid fl i s1 s1 fid pfid fr args hget hfr
                  hflag hma hprev hga]
                have hrm := runMatch_effects gid fid args s1 fr hfr
                refine Or.inr ⟨fid, args, rfl, hflagF, hrm.1, hrm.2.1, hrm.2.2.1,
                  hrm.2.2.2⟩

theorem countInvoc_one (f gid fid0 : Nat) (args : List Inp) (gm : Bool) (hk : Option Hook) :
    countInvoc f gid [{ fid := fid0, gid := gid, args := args, gradMode := gm, hook := hk }]
      = if fid0 = f then 1 else 0 := by
  by_cases h : fid0 = f
  · have hb : (fid0 == f) = true := beq_iff_eq.mpr h
    simp [countInvoc, List.filter, hb, h]
  · have hb : (fid0 == f) = false := beq_eq_false_iff_ne.mpr h
    simp [countInvoc, List.filter, hb, h]

theorem processOneFrame_count (gid : Nat) (fl : List Nat) (i : Nat) (s : St) :
    (∀ f, countInvoc f gid (processOneFrame gid fl i s).2.log ≤
        countInvoc f gid s.log + (if recFlag s f gid = true then 0 else 1)) ∧
    ((processOneFrame gid fl i s).1 = Except.ok () →
      ∀ f, countInvoc f gid (processOneFrame gid fl i s).2.log +
          (if recFlag (processOneFrame gid fl i s).2 f gid = true then 0 else 1) ≤
        countInvoc f gid s.log + (if recFlag s f gid = true then 0 else 1)) ∧
    (∀ f g, recFlag s f g = true → recFlag (processOneFrame gid fl i s).2 f g = true) := by
  rcases processOneFrame_step gid fl i s with ⟨hlog, hflag, _⟩ |
    ⟨fid, args, hget, hflagF, hlog, hothers, hmono, hmarks⟩
  · refine ⟨fun f => by rw [hlog]; split <;> omega, ?_, fun f g h => by rw [hflag]; exact h⟩
    intro _ f
    rw [hlog, hflag]
  · have hcnt : ∀ f, countInvoc f gid (processOneFrame gid fl i s).2.log =
        countInvoc f gid s.log + (if fid = f then 1 else 0) := by
      intro f
      rw [hlog, countInvoc_append, countInvoc_one]
    refine ⟨?_, ?_, hmono⟩
    · intro f
      rw [hcnt f]
      by_cases hf : fid = f
      · subst hf
        rw [hflagF]
        simp
      · have := hothers f gid (fun hc => hf hc.1.symm)
        simp [hf]
    · intro hok f
      rw [hcnt f]
      by_cases hf : fid = f
      · subst hf
        rw [hflagF, hmarks hok]
        simp
      · rw [hothers f gid (fun hc => hf hc.1.symm)]
        simp [hf]

theorem processLoop_effects (gid : Nat) (fl : List Nat) :
    ∀ (idx : List Nat) (s : St),
    (∀ f, countInvoc f gid (processLoop gid fl idx s).2.log ≤
        countInvoc f gid s.log + (if recFlag s f gid = true then 0 else 1)) ∧
    ((processLoop gid fl idx s).1 = Except.ok () →
      ∀ f, countInvoc f gid (processLoop gid fl idx s).2.log +
          (if recFlag (processLoop gid fl idx s).2 f gid = true then 0 else 1) ≤
        countInvoc f gid s.log + (if recFlag s f gid = true then 0 else 1)) ∧
    (∀ f g, recFlag s f g = true → recFlag (processLoop gid fl idx s).2 f g = true) := by
  intro idx
  induction idx with
  | nil =>
    intro s
    exact ⟨fun f => by simp [processLoop], fun _ f => by simp [processLoop],
      fun f g h => h⟩
  | cons i rest ih =>
    intro s
    have hstep := processOneFrame_count gid fl i s
    cases hr : processOneFrame gid fl i s with
    | mk r s1 =>
      rw [hr] at hstep
      simp only [processLoop, hr]
      cases r with
      | ok a =>
        obtain ⟨ihc, ihp, ihm⟩ := ih s1
        have hpot := hstep.2.1 rfl
        refine ⟨?_, ?_, ?_⟩
        · intro f
          calc countInvoc f gid (processLoop gid fl rest s1).2.log
              ≤ countInvoc f gid s1.log + (if recFlag s1 f gid = true then 0 else 1) :=
                ihc f
            _ ≤ countInvoc f gid s.log + (if recFlag s f gid = true then 0 else 1) :=
                hpot f
        · intro hok f
          calc countInvoc f gid (processLoop gid fl rest s1).2.log +
                  (if recFlag (processLoop gid fl rest s1).2 f gid = true then 0 else 1)
              ≤ countInvoc f gid s1.log + (if recFlag s1 f gid = true then 0 else 1) :=
                ihp hok f
            _ ≤ countInvoc f gid s.log + (if recFlag s f gid = true then 0 else 1) :=
                hpot f
        · intro f g h
          exact ihm f g (hstep.2.2 f g h)
      | error e =>
        refine ⟨hstep.1, ?_, hstep.2.2⟩
        intro hok
        exact Except.noConfusion hok

theorem processOneFrame_marks (gid : Nat) (fl : List Nat) (i : Nat) (s : St)
    (hok : (processOneFrame gid fl i s).1 = Except.ok ())
    (fid : Nat) (hget : fl.get? i = some fid) :
    recFlag (processOneFrame gid fl i s).2 fid gid = true := by
  rcases processOneFrame_step gid fl i s with ⟨_, _, hmk⟩ |
    ⟨fid0, args, hget0, _, _, _, _, hmk⟩
  · exact hmk hok fid hget
  · rw [hget0] at hget
    cases hget
    exact hmk hok

theorem processLoop_marks (gid : Nat) (fl : List Nat) :
    ∀ (idx : List Nat) (s : St),
    (processLoop gid fl idx s).1 = Except.ok () →
    ∀ i ∈ idx, ∀ fid, fl.get? i = some fid →
      recFlag (processLoop gid fl idx s).2 fid gid = true := by
  intro idx
  induction idx with
  | nil =>
    intro s _ i hi
    simp at hi
  | cons j rest ih =>
    intro s hok i hi fid hget
    cases hr : processOneFrame gid fl j s with
    | mk r s1 =>
      rw [processLoop, hr] at hok ⊢
      cases r with
      | error e => exact absurd hok (by simp)
      | ok a =>
        simp only at hok ⊢
        rcases List.mem_cons.mp hi with h1 | h2
        · subst h1
          have hm : recFlag s1 fid gid = true := by
            have := processOneFrame_marks gid fl i s (by rw [hr]) fid hget
            rw [hr] at this
            exact this
          exact (processLoop_effects gid fl rest s1).2.2 fid gid hm
        · exact ih s1 hok i h2 fid hget

/-- Claim C1: during a restore, a frame whose `is_recomputed` flag is
already set for the backward id is skipped, every frame processed is
marked recomputed afterwards (on success of the loop, which includes the
early-stop-aborted path), and consequently the recompute callback of any
given frame is invoked at most once more than the instrumentation counter
already shows — zero more when the flag is already set. -/
theorem recompute_invoked_at_most_once_per_gid (gid : Nat) (fl : List Nat) (s : St)
    (f : Nat) (hok : (processFrames gid fl s).1 = Except.ok ()) :
    countInvoc f gid (processFrames gid fl s).2.log ≤
      countInvoc f gid s.log + (if recFlag s f gid = true then 0 else 1)
  ∧ ∀ fid ∈ fl, recFlag (processFrames gid fl s).2 fid gid = true := by
  constructor
  · exact (processLoop_effects gid fl (List.range fl.length) s).1 f
  · intro fid hmem
    obtain ⟨i, hget⟩ := List.mem_iff_get?.mp hmem
    have hlt : i < fl.length := by
      by_contra hc
      push_neg at hc
      rw [List.get?_eq_none.mpr hc] at hget
      cases hget
    exact processLoop_marks gid fl (List.range fl.length) s hok i
      (List.mem_range.mpr hlt) fid hget

/-- Witness for C1 at a concrete state: one restore over `demoSt` invokes
frame 0's callback at most once and leaves it marked recomputed. -/
theorem recompute_invoked_at_most_once_per_gid_witness :
    countInvoc 0 0 (processFrames 0 [0] demoSt).2.log ≤
      countInvoc 0 0 demoSt.log + (if recFlag demoSt 0 0 = true then 0 else 1)
  ∧ recFlag (processFrames 0 [0] demoSt).2 0 0 = true :=
  ⟨(recompute_invoked_at_most_once_per_gid 0 [0] demoSt 0 rfl).1,
   (recompute_invoked_at_most_once_per_gid 0 [0] demoSt 0 rfl).2 0 (by simp)⟩

theorem processLoop_log (gid : Nat) (fl : List Nat) :
    ∀ (idx : List Nat) (s : St),
    ∃ tail, (processLoop gid fl idx s).2.log = s.log ++ tail ∧
      (∀ e ∈ tail, e.gid = gid ∧ e.gradMode = true ∧
         e.hook = some (Hook.inner e.fid gid)) ∧
      List.Sublist (tail.map Invoc.fid) (idx.filterMap fl.get?) := by
  intro idx
  induction idx with
  | nil =>
    intro s
    exact ⟨[], by simp [processLoop], fun e he => absurd he (List.not_mem_nil e),
      by simp⟩
  | cons j rest ih =>
    intro s
    have hstep := processOneFrame_step gid fl j s
    cases hr : processOneFrame gid fl j s with
    | mk r s1 =>
      rw [hr] at hstep
      cases r with
      | ok a =>
        obtain ⟨tail1, ih1, ih2, ih3⟩ := ih s1
        rcases hstep with ⟨hlog, _, _⟩ | ⟨fid, args, hget, _, hlog, _⟩
        · refine ⟨tail1, ?_, ih2, ?_⟩
          · rw [processLoop, hr]
            simp only
            rw [ih1, hlog]
          · rw [List.filterMap_cons]
            cases hget : fl.get? j with
            | none => exact ih3
            | some fid => exact ih3.cons fid
        · refine ⟨(⟨fid, gid, args, true, some (Hook.inner fid gid)⟩ : Invoc) :: tail1,
            ?_, ?_, ?_⟩
          · rw [processLoop, hr]
            simp only
            rw [ih1, hlog, List.append_assoc]
            rfl
          · intro e he
            rcases List.mem_cons.mp he with h1 | h2
            · subst h1
              exact ⟨rfl, rfl, rfl⟩
            · exact ih2 e h2
          · rw [List.filterMap_cons, hget]
            simp only [List.map_cons]
            exact ih3.cons₂ fid
      | error e =>
        rcases hstep with ⟨hlog, _, _⟩ | ⟨fid, args, hget, _, hlog, _⟩
        · refine ⟨[], ?_, fun e he => absurd he (List.not_mem_nil e), by simp⟩
          rw [processLoop, hr]
          simp only
          rw [hlog]
          simp
        · refine ⟨[(⟨fid, gid, args, true, some (Hook.inner fid gid)⟩ : Invoc)],
            ?_, ?_, ?_⟩
          · rw [processLoop, hr]
            simp only
            rw [hlog]
          · intro e he
            rcases List.mem_cons.mp he with h1 | h2
            · subst h1
              exact ⟨rfl, rfl, rfl⟩
            · exact absurd h2 (List.not_mem_nil e)
          · rw [List.filterMap_cons, hget]
            simp only [List.map_cons, List.map_nil]
            exact (List.nil_sublist _).cons₂ fid

theorem range_filterMap_get? {α : Type} :
    ∀ (l : List α), (List.range l.length).filterMap l.get? = l := by
  intro l
  induction l with
  | nil => simp
  | cons a tl ih =>
    rw [List.length_cons, List.range_succ_eq_map, List.filterMap_cons]
    have h0 : (a :: tl).get? 0 = some a := rfl
    rw [h0, List.filterMap_map]
    have hfn : ((a :: tl).get? ∘ Nat.succ) = tl.get? := by
      funext i
      rfl
    rw [hfn, ih]

theorem selectGid_writes (s : St) :
    (selectGid s).2.log = s.log ∧ (selectGid s).2.frames = s.frames ∧
    (selectGid s).2.holders = s.holders ∧ (selectGid s).2.cstacks = s.cstacks := by
  rw [selectGid]
  cases s.ambientGid with
  | none => exact ⟨rfl, rfl, rfl, rfl⟩
  | some g => exact ⟨rfl, rfl, rfl, rfl⟩

theorem unpack_log (hid : Nat) (fl : List Nat) (s : St) :
    (checkpoint_unpack_hook (hid, fl) s).2.log =
      (processFrames (selectGid s).1 fl (selectGid s).2).2.log ∨
    ((checkpoint_unpack_hook (hid, fl) s).2 = s ∧ fl.getLast? = none) := by
  cases htop : fl.getLast? with
  | none =>
    right
    constructor
    · rw [checkpoint_unpack_hook]
      simp only [htop]
    · rfl
  | some topFid =>
    left
    rw [checkpoint_unpack_hook]
    simp only [htop]
    cases hr1 : processFrames (selectGid s).1 fl (selectGid s).2 with
    | mk r s1 =>
      simp only
      cases r with
      | error e => rfl
      | ok a =>
        simp only
        cases h2 : alook hid s1.holders with
        | none => simp only [h2]
        | some ho =>
          cases ho with
          | none => simp only [h2]
          | some h =>
            simp only [h2]
            cases h3 : alook topFid s1.frames with
            | none => simp only [h3]
            | some topFr =>
              simp only [h3]
              cases h4 : alook h (alookD topFr.recomputed (selectGid s).1 []) with
              | none => simp only [h4]
              | some v => simp only [h4]

/-- Claim C7: a restore uses the ambient backward id when one is active
and otherwise synthesizes a fresh identifier; every recompute invocation
it performs carries that id, runs under the inner interceptor with grad
mode enabled, and the invoked frames appear in the captured
outermost-to-innermost order (a sublist of the frame sequence, since
already-recomputed frames are skipped); and each processed frame's
arguments come from its `maybe_args` when directly owned, and otherwise
from the parent frame's recomputed cache via `get_args_from_parent`. -/
theorem unpack_order_gid_args (s : St) (hid : Nat) (fl : List Nat) :
    (∀ g, s.ambientGid = some g → selectGid s = (g, s))
  ∧ (s.ambientGid = none →
       (selectGid s).1 = s.nextUuid ∧
       (selectGid s).2 = { s with nextUuid := s.nextUuid + 1 })
  ∧ (∃ tail, (checkpoint_unpack_hook (hid, fl) s).2.log = s.log ++ tail ∧
       (∀ e ∈ tail, e.gid = (selectGid s).1 ∧ e.gradMode = true ∧
          e.hook = some (Hook.inner e.fid (selectGid s).1)) ∧
       List.Sublist (tail.map Invoc.fid) fl)
  ∧ (∀ i fid fr, fl.get? i = some fid → alook fid s.frames = some fr →
       (alookD fr.is_recomputed (selectGid s).1 false = true →
          processOneFrame (selectGid s).1 fl i s = (Except.ok (), s))
     ∧ (∀ args, alookD fr.is_recomputed (selectGid s).1 false = false →
          fr.maybe_args = some args →
          (processOneFrame (selectGid s).1 fl i s).2.log =
            s.log ++ [{ fid := fid, gid := (selectGid s).1, args := args,
                        gradMode := true,
                        hook := some (Hook.inner fid (selectGid s).1) }])
     ∧ (∀ pfid args, alookD fr.is_recomputed (selectGid s).1 false = false →
          fr.maybe_args = none → pyPrev fl i = some pfid →
          get_args_from_parent fid pfid (selectGid s).1 s = (Except.ok args, s) →
          (processOneFrame (selectGid s).1 fl i s).2.log =
            s.log ++ [{ fid := fid, gid := (selectGid s).1, args := args,
                        gradMode := true,
                        hook := some (Hook.inner fid (selectGid s).1) }])) := by
  refine ⟨?_, ?_, ?_, ?_⟩
  · intro g hg
    rw [selectGid, hg]
  · intro hg
    rw [selectGid, hg]
    exact ⟨rfl, rfl⟩
  · rcases unpack_log hid fl s with hcase | ⟨hstate, _⟩
    · obtain ⟨tail, h1, h2, h3⟩ :=
        processLoop_log (selectGid s).1 fl (List.range fl.length) (selectGid s).2
      refine ⟨tail, ?_, h2, ?_⟩
      · rw [hcase, processFrames, h1, (selectGid_writes s).1]
      · rw [range_filterMap_get?] at h3
        exact h3
    · refine ⟨[], ?_, fun e he => absurd he (List.not_mem_nil e), by simp⟩
      rw [hstate]
      simp
  · intro i fid fr hget hfr
    refine ⟨?_, ?_, ?_⟩
    · intro hflag
      exact processOne_eq_skip (selectGid s).1 fl i s fid fr hget hfr hflag
    · intro args hflag hma
      rw [processOne_eq_run_ma (selectGid s).1 fl i s fid fr args hget hfr hflag hma]
      exact (runMatch_effects (selectGid s).1 fid args s fr hfr).1
    · intro pfid args hflag hma hprev hga
      rw [processOne_eq_run_parent (selectGid s).1 fl i s s fid pfid fr args hget hfr
        hflag hma hprev hga]
      exact (runMatch_effects (selectGid s).1 fid args s fr hfr).1

/-- Witness for C7 at a concrete state: the restore over `demoSt`
(no ambient backward) synthesizes id 0 from the uuid source, and its one
log entry records frame 0 invoked under the inner hook with grad mode on. -/
theorem unpack_order_gid_args_witness :
    (selectGid demoSt).1 = demoSt.nextUuid ∧
    (checkpoint_unpack_hook (0, [0]) demoSt).2.log =
      demoSt.log ++ [{ fid := 0, gid := 0, args := [], gradMode := true,
                       hook := some (Hook.inner 0 0) }] := by
  refine ⟨((unpack_order_gid_args demoSt 0 [0]).2.1 rfl).1, ?_⟩
  exact ((unpack_order_gid_args demoSt 0 [0]).2.2.2 0 0 demoFrame rfl rfl).2.1 [] rfl rfl

theorem outerPack_eq (s : St) (cur : List Nat × Bool) (topFid : Nat) (fr : Frame)
    (x : Tensor)
    (h1 : s.cstacks.getLast? = some cur) (h2 : cur.1.getLast? = some topFid)
    (h3 : alook topFid s.frames = some fr) :
    checkpoint_pack_hook x s =
      (Except.ok (s.nextHolder, cur.1),
       { s with
           holders := (s.nextHolder, some s.nextHandle) :: s.holders,
           frames := aset topFid
             { fr with weak_holders := fr.weak_holders ++ [s.nextHolder] } s.frames,
           nextHandle := s.nextHandle + 1,
           nextHolder := s.nextHolder + 1 }) := by
  simp only [checkpoint_pack_hook, h1, h2, h3]

theorem noopSaves_outer :
    ∀ (args : List Inp) (s : St) (cur : List Nat × Bool) (pfid : Nat) (pfr : Frame),
    s.hooks.head? = some Hook.outer →
    s.cstacks.getLast? = some cur →
    cur.1.getLast? = some pfid →
    alook pfid s.frames = some pfr →
    (noopSaveInputsSaves args s).1 = Except.ok () ∧
    ∃ pfr', alook pfid (noopSaveInputsSaves args s).2.frames = some pfr' ∧
      pfr'.weak_holders = pfr.weak_holders ++ List.range' s.nextHolder (tensorCount args) ∧
      pfr'.child_args_idx = pfr.child_args_idx ∧
      pfr'.maybe_args = pfr.maybe_args ∧
      pfr'.args_idx = pfr.args_idx ∧
      pfr'.recompute_fn = pfr.recompute_fn ∧
      (noopSaveInputsSaves args s).2.nextHolder = s.nextHolder + tensorCount args ∧
      (noopSaveInputsSaves args s).2.cstacks = s.cstacks ∧
      (noopSaveInputsSaves args s).2.hooks = s.hooks ∧
      (noopSaveInputsSaves args s).2.log = s.log ∧
      (∀ f, ¬f = pfid → alook f (noopSaveInputsSaves args s).2.frames = alook f s.frames) := by
  intro args
  induction args with
  | nil =>
    intro s cur pfid pfr hhook hcur hpar hpfr
    refine ⟨rfl, pfr, hpfr, by simp [tensorCount, List.range'], rfl, rfl, rfl, rfl,
      by simp [tensorCount, noopSaveInputsSaves], rfl, rfl, rfl, fun f _ => rfl⟩
  | cons a rest ih =>
    intro s cur pfid pfr hhook hcur hpar hpfr
    cases a with
    | other n =>
      have := ih s cur pfid pfr hhook hcur hpar hpfr
      simpa [noopSaveInputsSaves, tensorCount] using this
    | tensor t =>
      have hpk := outerPack_eq s cur pfid pfr t hcur hpar hpfr
      have hred : noopSaveInputsSaves (Inp.tensor t :: rest) s =
          noopSaveInputsSaves rest
            { s with
                holders := (s.nextHolder, some s.nextHandle) :: s.holders,
                frames := aset pfid
                  { pfr with weak_holders := pfr.weak_holders ++ [s.nextHolder] } s.frames,
                nextHandle := s.nextHandle + 1,
                nextHolder := s.nextHolder + 1 } := by
        simp only [noopSaveInputsSaves, packDispatch, hhook, hpk]
      rw [hred]
      have ih2 := ih
        { s with
            holders := (s.nextHolder, some s.nextHandle) :: s.holders,
            frames := aset pfid
              { pfr with weak_holders := pfr.weak_holders ++ [s.nextHolder] } s.frames,
            nextHandle := s.nextHandle + 1,
            nextHolder := s.nextHolder + 1 }
        cur pfid
        { pfr with weak_holders := pfr.weak_holders ++ [s.nextHolder] }
        hhook hcur hpar (alook_aset_self _ _ _)
      obtain ⟨hok, pfr', c1, c2, c3, c4, c5, c6, c7, c8, c9, c10, c11⟩ := ih2
      refine ⟨hok, pfr', c1, ?_, c3, c4, c5, c6, ?_, c8, c9, c10, ?_⟩
      · rw [c2]
        simp only
        rw [List.append_assoc]
        congr 1
      · rw [c7]
        simp only [tensorCount]
        omega
      · intro f hf
        rw [c11 f hf]
        simp only
        exact alook_aset_ne (fun h => hf h.symm) _ _

theorem save_args_to_parent_spec (fid pfid : Nat) (args : List Inp) (s : St)
    (cur : List Nat × Bool) (pfr fr0 : Frame)
    (hhook : s.hooks.head? = some Hook.outer)
    (hcur : s.cstacks.getLast? = some cur)
    (hpar : cur.1.getLast? = some pfid)
    (hpfr : alook pfid s.frames = some pfr)
    (hfr0 : alook fid s.frames = some fr0)
    (hne : ¬fid = pfid) :
    (save_args_to_parent fid pfid args s).1 =
      Except.ok (applyAutogradFunctionToSaveInputsVals args) ∧
    ∃ fr' pfr',
      alook fid (save_args_to_parent fid pfid args s).2.frames = some fr' ∧
      alook pfid (save_args_to_parent fid pfid args s).2.frames = some pfr' ∧
      fr'.maybe_args = fr0.maybe_args ∧
      fr'.recompute_fn = fr0.recompute_fn ∧
      fr'.args_idx = some (List.range' pfr.weak_holders.length (tensorCount args)) ∧
      fr'.args_handles = some (List.range' s.nextHolder (tensorCount args)) ∧
      pfr'.weak_holders = pfr.weak_holders ++ List.range' s.nextHolder (tensorCount args) ∧
      pfr'.child_args_idx = pfr.child_args_idx ++
        List.range' pfr.weak_holders.length (tensorCount args) ∧
      (save_args_to_parent fid pfid args s).2.cstacks = s.cstacks := by
  obtain ⟨hok, pfrm, c1, c2, c3, c4, c5, c6, c7, c8, c9, c10, c11⟩ :=
    noopSaves_outer args s cur pfid pfr hhook hcur hpar hpfr
  cases hnr : noopSaveInputsSaves args s with
  | mk r s1 =>
    rw [hnr] at hok c1 c7 c8
    cases r with
    | error e => exact absurd hok (by simp)
    | ok a =>
      have happ : applyAutogradFunctionToSaveInputs args s =
          (Except.ok (applyAutogradFunctionToSaveInputsVals args), s1) := by
        simp only [applyAutogradFunctionToSaveInputs, hnr]
      have hfr1 : alook fid s1.frames = alook fid s.frames := by
        rw [hnr] at c11
        exact c11 fid hne
      rw [hfr0] at hfr1
      have heq : save_args_to_parent fid pfid args s =
          (Except.ok (applyAutogradFunctionToSaveInputsVals args),
           { s1 with
               frames :=
                 aset fid
                   { fr0 with
                       args_handles :=
                         some (pfrm.weak_holders.drop pfr.weak_holders.length),
                       args_idx :=
                         some (List.range' pfr.weak_holders.length
                           (pfrm.weak_holders.length - pfr.weak_holders.length)) }
                   (aset pfid
                     { pfrm with
                         child_args_idx :=
                           pfrm.child_args_idx ++
                             List.range' pfr.weak_holders.length
                               (pfrm.weak_holders.length - pfr.weak_holders.length) }
                     s1.frames) }) := by
        simp only [save_args_to_parent, hpfr, happ, c1, hfr1]
      have hlen : pfrm.weak_holders.length - pfr.weak_holders.length =
          tensorCount args := by
        rw [c2, List.length_append, List.length_range']
        omega
      have hdrop : pfrm.weak_holders.drop pfr.weak_holders.length =
          List.range' s.nextHolder (tensorCount args) := by
        rw [c2, List.drop_left]
      refine ⟨by rw [heq],
        { fr0 with
            args_handles := some (pfrm.weak_holders.drop pfr.weak_holders.length),
            args_idx :=
              some (List.range' pfr.weak_holders.length
                (pfrm.weak_holders.length - pfr.weak_holders.length)) },
        { pfrm with
            child_args_idx :=
              pfrm.child_args_idx ++
                List.range' pfr.weak_holders.length
                  (pfrm.weak_holders.length - pfr.weak_holders.length) },
        ?_, ?_, rfl, rfl, ?_, ?_, ?_, ?_, ?_⟩
      · rw [heq]
        simp only
        exact alook_aset_self _ _ _
      · rw [heq]
        simp only
        rw [alook_aset_ne hne _ _]
        exact alook_aset_self _ _ _
      · rw [hlen]
      · rw [hdrop]
      · exact c2
      · rw [c3, hlen]
      · rw [heq]
        simp only
        exact c8

/-- Claim C9: entering a checkpoint region dispatches on the current stack
entry.  With no active frame but a recomputation in progress, the inputs
are run through the identity-save adapter *and* the adapter's outputs are
kept as the new frame's `maybe_args` (the dual save).  With an active
frame, the inputs are saved onto that parent (growing its `weak_holders`
and `child_args_idx`, and recording the delegation positions on the child)
while `maybe_args` stays `None`.  With no active frame and no
recomputation, the raw inputs are stored directly in `maybe_args`. -/
theorem checkpoint_enter_input_handling (rfn : List Inp → List Tensor) (args : List Inp)
    (s : St) (cur : List Nat × Bool)
    (hcur : s.cstacks.getLast? = some cur) :
    (cur.1 = [] → cur.2 = true →
      ∀ s1, noopSaveInputsSaves args
          { s with nextFrame := s.nextFrame + 1,
                   frames := aset s.nextFrame (emptyFrame rfn) s.frames }
          = (Except.ok (), s1) →
      ∀ fr1, alook s.nextFrame s1.frames = some fr1 →
        checkpoint_impl_enter rfn args s =
          (Except.ok (s.nextFrame, applyAutogradFunctionToSaveInputsVals args),
           pushFrameOnCurr s.nextFrame
             { s1 with
                 frames :=
                   aset s.nextFrame
                     { fr1 with
                         maybe_args := some (applyAutogradFunctionToSaveInputsVals args) }
                     s1.frames }))
  ∧ (cur.1 = [] → cur.2 = false →
      checkpoint_impl_enter rfn args s =
        (Except.ok (s.nextFrame, args),
         pushFrameOnCurr s.nextFrame
           { s with
               nextFrame := s.nextFrame + 1,
               frames :=
                 aset s.nextFrame
                   { emptyFrame rfn with maybe_args := some args } s.frames }))
  ∧ (∀ pfid pfr, cur.1.getLast? = some pfid →
       alook pfid s.frames = some pfr →
       alook s.nextFrame s.frames = none →
       s.hooks.head? = some Hook.outer →
       (checkpoint_impl_enter rfn args s).1 =
          Except.ok (s.nextFrame, applyAutogradFunctionToSaveInputsVals args) ∧
       ∃ fr' pfr',
         alook s.nextFrame (checkpoint_impl_enter rfn args s).2.frames = some fr' ∧
         alook pfid (checkpoint_impl_enter rfn args s).2.frames = some pfr' ∧
         fr'.maybe_args = none ∧
         fr'.args_idx = some (List.range' pfr.weak_holders.length (tensorCount args)) ∧
         fr'.args_handles = some (List.range' s.nextHolder (tensorCount args)) ∧
         pfr'.weak_holders =
           pfr.weak_holders ++ List.range' s.nextHolder (tensorCount args) ∧
         pfr'.child_args_idx =
           pfr.child_args_idx ++ List.range' pfr.weak_holders.length (tensorCount args)) := by
  refine ⟨?_, ?_, ?_⟩
  · intro h1 h2 s1 hns fr1 hfr1
    have happ : applyAutogradFunctionToSaveInputs args
        { s with nextFrame := s.nextFrame + 1,
                 frames := aset s.nextFrame (emptyFrame rfn) s.frames }
        = (Except.ok (applyAutogradFunctionToSaveInputsVals args), s1) := by
      simp only [applyAutogradFunctionToSaveInputs, hns]
    simp only [checkpoint_impl_enter, hcur, h1, h2, happ, hfr1, if_true,
      List.getLast?_nil]
  · intro h1 h2
    simp only [checkpoint_impl_enter, hcur, h1, h2, List.getLast?_nil,
      Bool.false_eq_true, if_false, alook_aset_self, aset_aset_self]
  · intro pfid pfr hpar hpfr hfresh hhook
    have hne : ¬s.nextFrame = pfid := by
      intro h
      rw [h, hpfr] at hfresh
      cases hfresh
    have hpfr0 : alook pfid
        ({ s with nextFrame := s.nextFrame + 1,
                  frames := aset s.nextFrame (emptyFrame rfn) s.frames } : St).frames
        = some pfr := by
      simp only
      rw [alook_aset_ne hne]
      exact hpfr
    have hfr0 : alook s.nextFrame
        ({ s with nextFrame := s.nextFrame + 1,
                  frames := aset s.nextFrame (emptyFrame rfn) s.frames } : St).frames
        = some (emptyFrame rfn) := by
      simp only
      exact alook_aset_self _ _ _
    obtain ⟨hsr1, fr', pfr', d1, d2, d3, d4, d5, d6, d7, d8, d9⟩ :=
      save_args_to_parent_spec s.nextFrame pfid args
        { s with nextFrame := s.nextFrame + 1,
                 frames := aset s.nextFrame (emptyFrame rfn) s.frames }
        cur pfr (emptyFrame rfn) hhook hcur hpar hpfr0 hfr0 hne
    cases hsr : save_args_to_parent s.nextFrame pfid args
        { s with nextFrame := s.nextFrame + 1,
                 frames := aset s.nextFrame (emptyFrame rfn) s.frames } with
    | mk r s2 =>
      rw [hsr] at hsr1 d1 d2
      cases r with
      | error e => exact absurd hsr1 (by simp)
      | ok newArgs =>
        have hargs : newArgs = applyAutogradFunctionToSaveInputsVals args := by
          have := hsr1
          simp at this
          exact this
        subst hargs
        have henter : checkpoint_impl_enter rfn args s =
            (Except.ok (s.nextFrame, applyAutogradFunctionToSaveInputsVals args),
             pushFrameOnCurr s.nextFrame s2) := by
          simp only [checkpoint_impl_enter, hcur, hpar, hsr]
        rw [henter]
        exact ⟨rfl, fr', pfr', d1, d2, d3, d5, d6, d7, d8⟩

/-- Witness for C9 at a concrete state: entering a region at top level
with no recomputation in progress stores the raw inputs in `maybe_args`. -/
theorem checkpoint_enter_input_handling_witness :
    checkpoint_impl_enter (fun _ => []) [Inp.tensor demoTensor] demoSt =
      (Except.ok (1, [Inp.tensor demoTensor]),
       pushFrameOnCurr 1
         { demoSt with
             nextFrame := 2,
             frames :=
               aset 1
                 { emptyFrame (fun _ => []) with
                     maybe_args := some [Inp.tensor demoTensor] }
                 demoSt.frames }) :=
  (checkpoint_enter_input_handling (fun _ => []) [Inp.tensor demoTensor] demoSt
    ([], false) rfl).2.1 rfl rfl

theorem innerPack_ids (fid gid : Nat) (x : Tensor) (s : St) :
    (recomputation_pack_hook fid gid x s).2.nextHolder = s.nextHolder ∧
    (recomputation_pack_hook fid gid x s).2.nextFrame = s.nextFrame := by
  have h := innerPack_writes fid gid x s
  exact ⟨h.2.2.2.2.2.1, h.2.2.2.2.2.2.1⟩

theorem saveLoop_ids (fid gid : Nat) :
    ∀ (xs : List Tensor) (s : St),
    (saveLoop fid gid xs s).2.nextHolder = s.nextHolder ∧
    (saveLoop fid gid xs s).2.nextFrame = s.nextFrame := by
  intro xs
  induction xs with
  | nil => intro s; exact ⟨rfl, rfl⟩
  | cons x xs ih =>
    intro s
    have hw := innerPack_ids fid gid x s
    simp only [saveLoop]
    cases hr : recomputation_pack_hook fid gid x s with
    | mk r s' =>
      rw [hr] at hw
      cases r with
      | ok a => exact ⟨(ih s').1.trans hw.1, (ih s').2.trans hw.2⟩
      | error e => exact hw

theorem saveLoop_frames_other (fid gid : Nat) :
    ∀ (xs : List Tensor) (s : St) (f : Nat), ¬f = fid →
    alook f (saveLoop fid gid xs s).2.frames = alook f s.frames := by
  intro xs
  induction xs with
  | nil => intro s f _; rfl
  | cons x xs ih =>
    intro s f hf
    have hw := innerPack_frames_other fid gid x s f hf
    simp only [saveLoop]
    cases hr : recomputation_pack_hook fid gid x s with
    | mk r s' =>
      rw [hr] at hw
      cases r with
      | ok a => exact (ih s' f hf).trans hw
      | error e => exact hw

theorem saveLoop_frame_self (fid gid : Nat) :
    ∀ (xs : List Tensor) (s : St) (fr : Frame),
    alook fid s.frames = some fr →
    ∃ fr', alook fid (saveLoop fid gid xs s).2.frames = some fr' ∧
      fr'.recompute_fn = fr.recompute_fn ∧
      fr'.weak_holders = fr.weak_holders ∧
      fr'.is_recomputed = fr.is_recomputed ∧
      fr'.maybe_args = fr.maybe_args ∧
      fr'.args_idx = fr.args_idx ∧
      fr'.child_args_idx = fr.child_args_idx := by
  intro xs
  induction xs with
  | nil =>
    intro s fr hfr
    exact ⟨fr, hfr, rfl, rfl, rfl, rfl, rfl, rfl⟩
  | cons x xs ih =>
    intro s fr hfr
    obtain ⟨fr1, h1, e1, e2, e3, e4, e5, e6⟩ := innerPack_frame_self fid gid x s fr hfr
    simp only [saveLoop]
    cases hr : recomputation_pack_hook fid gid x s with
    | mk r s' =>
      rw [hr] at h1
      cases r with
      | ok a =>
        obtain ⟨fr2, g1, g2, g3, g4, g5, g6, g7⟩ := ih s' fr1 h1
        exact ⟨fr2, g1, g2.trans e1, g3.trans e2, g4.trans e3, g5.trans e4,
          g6.trans e5, g7.trans e6⟩
      | error e => exact ⟨fr1, h1, e1, e2, e3, e4, e5, e6⟩

theorem runRecompute_frames_other (fid gid : Nat) (args : List Inp) (s : St) (f : Nat)
    (hf : ¬f = fid) :
    alook f (runRecompute fid gid args s).2.frames = alook f s.frames := by
  cases hfr : alook fid s.frames with
  | none => rw [runRecompute_nofr fid gid args s hfr]
  | some fr =>
    simp only [runRecompute, hfr]
    have hsl := saveLoop_frames_other fid gid (fr.recompute_fn args)
      { s with log := s.log ++ [⟨fid, gid, args, s.gradMode, s.hooks.head?⟩] } f hf
    cases hr : saveLoop fid gid (fr.recompute_fn args)
      { s with log := s.log ++ [⟨fid, gid, args, s.gradMode, s.hooks.head?⟩] } with
    | mk r s2 =>
      rw [hr] at hsl
      cases r with
      | ok a =>
        by_cases he : s2.earlyStop = true
        · simp only [he, if_true]
          exact hsl
        · simp only [he, if_false]
          exact hsl
      | error e => exact hsl

theorem runRecompute_frame_self (fid gid : Nat) (args : List Inp) (s : St) (fr : Frame)
    (hfr : alook fid s.frames = some fr) :
    ∃ fr', alook fid (runRecompute fid gid args s).2.frames = some fr' ∧
      fr'.recompute_fn = fr.recompute_fn ∧
      fr'.weak_holders = fr.weak_holders ∧
      fr'.is_recomputed = fr.is_recomputed ∧
      fr'.maybe_args = fr.maybe_args ∧
      fr'.args_idx = fr.args_idx ∧
      fr'.child_args_idx = fr.child_args_idx := by
  simp only [runRecompute, hfr]
  have hsl := saveLoop_frame_self fid gid (fr.recompute_fn args)
    { s with log := s.log ++ [⟨fid, gid, args, s.gradMode, s.hooks.head?⟩] } fr hfr
  cases hr : saveLoop fid gid (fr.recompute_fn args)
    { s with log := s.log ++ [⟨fid, gid, args, s.gradMode, s.hooks.head?⟩] } with
  | mk r s2 =>
    rw [hr] at hsl
    cases r with
    | ok a =>
      by_cases he : s2.earlyStop = true
      · simp only [he, if_true]
        exact hsl
      · simp only [he, if_false]
        exact hsl
    | error e => exact hsl

theorem tryRecompute_frames_other (fid gid : Nat) (args : List Inp) (s : St) (f : Nat)
    (hf : ¬f = fid) :
    alook f (tryRecompute fid gid args s).2.frames = alook f s.frames := by
  have hrr := runRecompute_frames_other fid gid args
    { s with cstacks := s.cstacks ++ [([], true)],
             hooks := Hook.inner fid gid :: s.hooks, gradMode := true } f hf
  simp only [tryRecompute, recomputeUnderHook]
  cases hr : runRecompute fid gid args
    { s with cstacks := s.cstacks ++ [([], true)],
             hooks := Hook.inner fid gid :: s.hooks, gradMode := true } with
  | mk r s2 =>
    rw [hr] at hrr
    cases r with
    | ok a => exact hrr
    | error e =>
      cases e with
      | stop => exact hrr
      | doubleConsumption => exact hrr
      | missingRecomputed => exact hrr
      | assertFail => exact hrr
      | indexError => exact hrr
      | keyError => exact hrr

theorem tryRecompute_frame_self (fid gid : Nat) (args : List Inp) (s : St) (fr : Frame)
    (hfr : alook fid s.frames = some fr) :
    ∃ fr', alook fid (tryRecompute fid gid args s).2.frames = some fr' ∧
      fr'.recompute_fn = fr.recompute_fn ∧
      fr'.weak_holders = fr.weak_holders ∧
      fr'.is_recomputed = fr.is_recomputed ∧
      fr'.maybe_args = fr.maybe_args ∧
      fr'.args_idx = fr.args_idx ∧
      fr'.child_args_idx = fr.child_args_idx := by
  have hrr := runRecompute_frame_self fid gid args
    { s with cstacks := s.cstacks ++ [([], true)],
             hooks := Hook.inner fid gid :: s.hooks, gradMode := true } fr hfr
  simp only [tryRecompute, recomputeUnderHook]
  cases hr : runRecompute fid gid args
    { s with cstacks := s.cstacks ++ [([], true)],
             hooks := Hook.inner fid gid :: s.hooks, gradMode := true } with
  | mk r s2 =>
    rw [hr] at hrr
    cases r with
    | ok a => exact hrr
    | error e =>
      cases e with
      | stop => exact hrr
      | doubleConsumption => exact hrr
      | missingRecomputed => exact hrr
      | assertFail => exact hrr
      | indexError => exact hrr
      | keyError => exact hrr

theorem mark_frames_other (fid gid : Nat) (s : St) (f : Nat) (hf : ¬f = fid) :
    alook f (markRecomputed fid gid s).frames = alook f s.frames := by
  cases hfr : alook fid s.frames with
  | none => simp only [markRecomputed, hfr]
  | some fr =>
    simp only [markRecomputed, hfr]
    exact alook_aset_ne (fun h => hf h.symm) _ _

theorem mark_frame_self (fid gid : Nat) (s : St) (fr : Frame)
    (hfr : alook fid s.frames = some fr) :
    alook fid (markRecomputed fid gid s).frames =
      some { fr with is_recomputed := aset gid true fr.is_recomputed } := by
  simp only [markRecomputed, hfr]
  exact alook_aset_self _ _ _

theorem innerPack_lockstep (fid gid : Nat) (x : Tensor) (s t : St) (fr : Frame)
    (hid : Nat)
    (hF : s.frames = t.frames) (hH : s.holders = t.holders)
    (hNh : s.nextHandle = t.nextHandle)
    (hs : s.earlyStop = true) (ht : t.earlyStop = false)
    (hfr : alook fid s.frames = some fr)
    (hidx : fr.weak_holders.get? (alookD fr.recomp_counter gid 0) = some hid) :
    (recomputation_pack_hook fid gid x s).2.frames =
      (recomputation_pack_hook fid gid x t).2.frames ∧
    (recomputation_pack_hook fid gid x s).2.holders =
      (recomputation_pack_hook fid gid x t).2.holders ∧
    (recomputation_pack_hook fid gid x s).2.nextHandle =
      (recomputation_pack_hook fid gid x t).2.nextHandle ∧
    (recomputation_pack_hook fid gid x t).1 = Except.ok x.detach ∧
    (alookD fr.recomp_counter gid 0 + 1 = fr.weak_holders.length →
      (recomputation_pack_hook fid gid x s).1 = Except.error Err.stop) ∧
    (¬(alookD fr.recomp_counter gid 0 + 1 = fr.weak_holders.length) →
      (recomputation_pack_hook fid gid x s).1 = Except.ok x.detach) := by
  have hfrT : alook fid t.frames = some fr := by rw [← hF]; exact hfr
  have hcondT :
      (t.earlyStop && (alookD fr.recomp_counter gid 0 + 1 == fr.weak_holders.length))
        = false := by
    rw [ht]
    rfl
  cases hh : alook hid s.holders with
  | none =>
    have hhT : alook hid t.holders = none := by rw [← hH]; exact hh
    rw [innerPack_eq_dead fid gid x s fr hid hfr hidx hh,
        innerPack_eq_dead fid gid x t fr hid hfrT hidx hhT]
    refine ⟨by simp only; rw [hF], by simp only; exact hH,
      by simp only; rw [hNh], ?_, ?_, ?_⟩
    · simp only [hcondT, Bool.false_eq_true, if_false]
    · intro hlen
      have : (s.earlyStop &&
          (alookD fr.recomp_counter gid 0 + 1 == fr.weak_holders.length)) = true := by
        rw [hs, beq_iff_eq.mpr hlen]
        rfl
      simp only [this, if_true]
    · intro hlen
      have : (s.earlyStop &&
          (alookD fr.recomp_counter gid 0 + 1 == fr.weak_holders.length)) = false := by
        rw [hs, beq_eq_false_iff_ne.mpr hlen]
        rfl
      simp only [this, Bool.false_eq_true, if_false]
  | some hOpt =>
    have hhT : alook hid t.holders = some hOpt := by rw [← hH]; exact hh
    cases hOpt with
    | none =>
      rw [innerPack_eq_live_none fid gid x s fr hid hfr hidx hh,
          innerPack_eq_live_none fid gid x t fr hid hfrT hidx hhT]
      refine ⟨by simp only; rw [hF, hNh], by simp only; rw [hH, hNh],
        by simp only; rw [hNh], ?_, ?_, ?_⟩
      · simp only [hcondT, Bool.false_eq_true, if_false]
      · intro hlen
        have : (s.earlyStop &&
            (alookD fr.recomp_counter gid 0 + 1 == fr.weak_holders.length)) = true := by
          rw [hs, beq_iff_eq.mpr hlen]
          rfl
        simp only [this, if_true]
      · intro hlen
        have : (s.earlyStop &&
            (alookD fr.recomp_counter gid 0 + 1 == fr.weak_holders.length)) = false := by
          rw [hs, beq_eq_false_iff_ne.mpr hlen]
          rfl
        simp only [this, Bool.false_eq_true, if_false]
    | some h0 =>
      rw [innerPack_eq_live_some fid gid x s fr hid h0 hfr hidx hh,
          innerPack_eq_live_some fid gid x t fr hid h0 hfrT hidx hhT]
      refine ⟨by simp only; rw [hF], by simp only; rw [hH],
        by simp only; rw [hNh], ?_, ?_, ?_⟩
      · simp only [hcondT, Bool.false_eq_true, if_false]
      · intro hlen
        have : (s.earlyStop &&
            (alookD fr.recomp_counter gid 0 + 1 == fr.weak_holders.length)) = true := by
          rw [hs, beq_iff_eq.mpr hlen]
          rfl
        simp only [this, if_true]
      · intro hlen
        have : (s.earlyStop &&
            (alookD fr.recomp_counter gid 0 + 1 == fr.weak_holders.length)) = false := by
          rw [hs, beq_eq_false_iff_ne.mpr hlen]
          rfl
        simp only [this, Bool.false_eq_true, if_false]

theorem innerPack_counter (fid gid : Nat) (x : Tensor) (s : St) (fr : Frame)
    (hid : Nat)
    (hfr : alook fid s.frames = some fr)
    (hidx : fr.weak_holders.get? (alookD fr.recomp_counter gid 0) = some hid) :
    ∃ fr', alook fid (recomputation_pack_hook fid gid x s).2.frames = some fr' ∧
      fr'.recomp_counter =
        aset gid (alookD fr.recomp_counter gid 0 + 1) fr.recomp_counter ∧
      fr'.weak_holders = fr.weak_holders ∧
      fr'.recompute_fn = fr.recompute_fn ∧
      fr'.is_recomputed = fr.is_recomputed := by
  cases hh : alook hid s.holders with
  | none =>
    rw [innerPack_eq_dead fid gid x s fr hid hfr hidx hh]
    exact ⟨_, alook_aset_self _ _ _, rfl, rfl, rfl, rfl⟩
  | some hOpt =>
    cases hOpt with
    | none =>
      rw [innerPack_eq_live_none fid gid x s fr hid hfr hidx hh]
      exact ⟨_, alook_aset_self _ _ _, rfl, rfl, rfl, rfl⟩
    | some h0 =>
      rw [innerPack_eq_live_some fid gid x s fr hid h0 hfr hidx hh]
      exact ⟨_, alook_aset_self _ _ _, rfl, rfl, rfl, rfl⟩

theorem saveLoop_lockstep (fid gid : Nat) :
    ∀ (xs : List Tensor) (s t : St) (fr : Frame),
    s.earlyStop = true → t.earlyStop = false →
    s.frames = t.frames → s.holders = t.holders → s.nextHandle = t.nextHandle →
    alook fid s.frames = some fr →
    alookD fr.recomp_counter gid 0 + xs.length = fr.weak_holders.length →
    (saveLoop fid gid xs s).2.frames = (saveLoop fid gid xs t).2.frames ∧
    (saveLoop fid gid xs s).2.holders = (saveLoop fid gid xs t).2.holders ∧
    (saveLoop fid gid xs s).2.nextHandle = (saveLoop fid gid xs t).2.nextHandle ∧
    (saveLoop fid gid xs t).1 = Except.ok () ∧
    (xs = [] → (saveLoop fid gid xs s).1 = Except.ok ()) ∧
    (¬xs = [] → (saveLoop fid gid xs s).1 = Except.error Err.stop) := by
  intro xs
  induction xs with
  | nil =>
    intro s t fr _ _ hF hH hNh _ _
    exact ⟨hF, hH, hNh, rfl, fun _ => rfl, fun h => absurd rfl h⟩
  | cons x xs ih =>
    intro s t fr hs ht hF hH hNh hfr hcount
    have hlt : alookD fr.recomp_counter gid 0 < fr.weak_holders.length := by
      rw [List.length_cons] at hcount
      omega
    have hidx : fr.weak_holders.get? (alookD fr.recomp_counter gid 0) =
        some (fr.weak_holders.get ⟨alookD fr.recomp_counter gid 0, hlt⟩) :=
      List.get?_eq_get hlt
    have hL := innerPack_lockstep fid gid x s t fr _ hF hH hNh hs ht hfr hidx
    have hC := innerPack_counter fid gid x s fr _ hfr hidx
    have hWs := innerPack_writes fid gid x s
    have hWt := innerPack_writes fid gid x t
    simp only [saveLoop]
    cases hrs : recomputation_pack_hook fid gid x s with
    | mk rs s' =>
      cases hrt : recomputation_pack_hook fid gid x t with
      | mk rt t' =>
        rw [hrs, hrt] at hL
        rw [hrs] at hC hWs
        rw [hrt] at hWt
        obtain ⟨eF, eH, eNh, hrtOk, hstop, hok⟩ := hL
        have hrtOk' : rt = Except.ok x.detach := hrtOk
        subst hrtOk'
        by_cases hxs : xs = []
        · subst hxs
          have : rs = Except.error Err.stop := by
            apply hstop
            rw [List.length_cons] at hcount
            simpa using hcount
          subst this
          simp only
          refine ⟨eF, eH, eNh, rfl, ?_, ?_⟩
          · intro h
            exact absurd h (List.cons_ne_nil x [])
          · intro _
            trivial
        · have hne : ¬alookD fr.recomp_counter gid 0 + 1 = fr.weak_holders.length := by
            rw [List.length_cons] at hcount
            have : 0 < xs.length := List.length_pos.mpr hxs
            omega
          have : rs = Except.ok x.detach := hok hne
          subst this
          simp only
          obtain ⟨fr', hfr', hcnt', hwh', _, _⟩ := hC
          have hcount' : alookD fr'.recomp_counter gid 0 + xs.length =
              fr'.weak_holders.length := by
            rw [hcnt', alookD_aset_self, hwh']
            rw [List.length_cons] at hcount
            omega
          have hih := ih s' t' fr'
            (hWs.2.2.2.1.trans hs) (hWt.2.2.2.1.trans ht)
            eF eH eNh hfr' hcount'
          exact ⟨hih.1, hih.2.1, hih.2.2.1, hih.2.2.2.1,
            fun h => absurd h (List.cons_ne_nil x xs), fun _ => hih.2.2.2.2.2 hxs⟩

theorem runRecompute_ids (fid gid : Nat) (args : List Inp) (s : St) :
    (runRecompute fid gid args s).2.nextHolder = s.nextHolder ∧
    (runRecompute fid gid args s).2.nextFrame = s.nextFrame := by
  cases hfr : alook fid s.frames with
  | none =>
    rw [runRecompute_nofr fid gid args s hfr]
    exact ⟨rfl, rfl⟩
  | some fr =>
    simp only [runRecompute, hfr]
    have hsl := saveLoop_ids fid gid (fr.recompute_fn args)
      { s with log := s.log ++ [⟨fid, gid, args, s.gradMode, s.hooks.head?⟩] }
    cases hr : saveLoop fid gid (fr.recompute_fn args)
      { s with log := s.log ++ [⟨fid, gid, args, s.gradMode, s.hooks.head?⟩] } with
    | mk r s2 =>
      rw [hr] at hsl
      cases r with
      | ok a =>
        simp only [ite_snd]
        exact hsl
      | error e => exact hsl

theorem runRecompute_lockstep (fid gid : Nat) (args : List Inp) (s t : St) (fr : Frame)
    (hs : s.earlyStop = true) (ht : t.earlyStop = false)
    (hF : s.frames = t.frames) (hH : s.holders = t.holders)
    (hNh : s.nextHandle = t.nextHandle) (hGm : s.gradMode = t.gradMode)
    (hHk : s.hooks = t.hooks) (hLog : s.log = t.log)
    (hfr : alook fid s.frames = some fr)
    (hlen : (fr.recompute_fn args).length = fr.weak_holders.length)
    (hpos : 0 < fr.weak_holders.length)
    (hcnt : alookD fr.recomp_counter gid 0 = 0) :
    (runRecompute fid gid args s).2.frames = (runRecompute fid gid args t).2.frames ∧
    (runRecompute fid gid args s).2.holders = (runRecompute fid gid args t).2.holders ∧
    (runRecompute fid gid args s).2.nextHandle =
      (runRecompute fid gid args t).2.nextHandle ∧
    (runRecompute fid gid args s).2.log = (runRecompute fid gid args t).2.log ∧
    (runRecompute fid gid args t).1 = Except.ok () ∧
    (runRecompute fid gid args s).1 = Except.error Err.stop := by
  have hfrT : alook fid t.frames = some fr := by rw [← hF]; exact hfr
  have hne : ¬fr.recompute_fn args = [] := by
    intro h
    rw [h] at hlen
    simp only [List.length_nil] at hlen
    omega
  have hL := saveLoop_lockstep fid gid (fr.recompute_fn args)
    { s with log := s.log ++ [⟨fid, gid, args, s.gradMode, s.hooks.head?⟩] }
    { t with log := t.log ++ [⟨fid, gid, args, t.gradMode, t.hooks.head?⟩] }
    fr hs ht hF hH hNh hfr (by rw [hcnt, hlen]; omega)
  have hWs := saveLoop_writes fid gid (fr.recompute_fn args)
    { s with log := s.log ++ [⟨fid, gid, args, s.gradMode, s.hooks.head?⟩] }
  have hWt := saveLoop_writes fid gid (fr.recompute_fn args)
    { t with log := t.log ++ [⟨fid, gid, args, t.gradMode, t.hooks.head?⟩] }
  simp only [runRecompute, hfr, hfrT]
  cases hrS : saveLoop fid gid (fr.recompute_fn args)
      { s with log := s.log ++ [⟨fid, gid, args, s.gradMode, s.hooks.head?⟩] } with
  | mk rS sS =>
    cases hrT : saveLoop fid gid (fr.recompute_fn args)
        { t with log := t.log ++ [⟨fid, gid, args, t.gradMode, t.hooks.head?⟩] } with
    | mk rT tT =>
      rw [hrS, hrT] at hL
      rw [hrS] at hWs
      rw [hrT] at hWt
      obtain ⟨eF, eH, eNh, hTok, _, hSstop⟩ := hL
      have hTok' : rT = Except.ok () := hTok
      subst hTok'
      have hSstop' : rS = Except.error Err.stop := hSstop hne
      subst hSstop'
      have hTearly : tT.earlyStop = false := hWt.2.2.2.1.trans ht
      simp only [hTearly, Bool.false_eq_true, if_false]
      refine ⟨eF, eH, eNh, ?_, by trivial, by trivial⟩
      have hsl : sS.log = s.log ++ [⟨fid, gid, args, s.gradMode, s.hooks.head?⟩] :=
        hWs.2.2.2.2.2.2.1
      have htl : tT.log = t.log ++ [⟨fid, gid, args, t.gradMode, t.hooks.head?⟩] :=
        hWt.2.2.2.2.2.2.1
      rw [hsl, htl, hLog, hGm, hHk]

theorem mark_writes (fid gid : Nat) (s : St) :
    (markRecomputed fid gid s).holders = s.holders ∧
    (markRecomputed fid gid s).nextHandle = s.nextHandle ∧
    (markRecomputed fid gid s).nextHolder = s.nextHolder ∧
    (markRecomputed fid gid s).nextFrame = s.nextFrame := by
  cases hfr : alook fid s.frames with
  | none => simp [markRecomputed, hfr]
  | some fr => simp [markRecomputed, hfr]

theorem tryRecompute_lockstep (fid gid : Nat) (args : List Inp) (s t : St) (fr : Frame)
    (hs : s.earlyStop = true) (ht : t.earlyStop = false)
    (hObs : obsEq s t)
    (hfr : alook fid s.frames = some fr)
    (hlen : (fr.recompute_fn args).length = fr.weak_holders.length)
    (hpos : 0 < fr.weak_holders.length)
    (hcnt : alookD fr.recomp_counter gid 0 = 0) :
    (tryRecompute fid gid args s).1 = Except.ok () ∧
    (tryRecompute fid gid args t).1 = Except.ok () ∧
    obsEq (tryRecompute fid gid args s).2 (tryRecompute fid gid args t).2 ∧
    (tryRecompute fid gid args s).2.earlyStop = true ∧
    (tryRecompute fid gid args t).2.earlyStop = false := by
  obtain ⟨oF, oH, oHk, oGm, oAg, oNh, oNho, oNf, oNu, oLog⟩ := hObs
  have hfrT : alook fid t.frames = some fr := by rw [← oF]; exact hfr
  have hRL := runRecompute_lockstep fid gid args
    { s with cstacks := s.cstacks ++ [([], true)],
             hooks := Hook.inner fid gid :: s.hooks, gradMode := true }
    { t with cstacks := t.cstacks ++ [([], true)],
             hooks := Hook.inner fid gid :: t.hooks, gradMode := true }
    fr hs ht oF oH oNh rfl (by simp only; rw [oHk]) oLog hfr hlen hpos hcnt
  have hEs := runRecompute_effects fid gid args
    { s with cstacks := s.cstacks ++ [([], true)],
             hooks := Hook.inner fid gid :: s.hooks, gradMode := true } fr hfr
  have hEt := runRecompute_effects fid gid args
    { t with cstacks := t.cstacks ++ [([], true)],
             hooks := Hook.inner fid gid :: t.hooks, gradMode := true } fr hfrT
  have hIs := runRecompute_ids fid gid args
    { s with cstacks := s.cstacks ++ [([], true)],
             hooks := Hook.inner fid gid :: s.hooks, gradMode := true }
  have hIt := runRecompute_ids fid gid args
    { t with cstacks := t.cstacks ++ [([], true)],
             hooks := Hook.inner fid gid :: t.hooks, gradMode := true }
  simp only [tryRecompute, recomputeUnderHook]
  cases hrS : runRecompute fid gid args
      { s with cstacks := s.cstacks ++ [([], true)],
               hooks := Hook.inner fid gid :: s.hooks, gradMode := true } with
  | mk rS AS =>
    cases hrT : runRecompute fid gid args
        { t with cstacks := t.cstacks ++ [([], true)],
                 hooks := Hook.inner fid gid :: t.hooks, gradMode := true } with
    | mk rT AT =>
      rw [hrS] at hRL hEs hIs
      rw [hrT] at hRL hEt hIt
      obtain ⟨eF, eH, eNh, eLog, hTok, hSstop⟩ := hRL
      have hTok' : rT = Except.ok () := hTok
      subst hTok'
      have hSstop' : rS = Except.error Err.stop := hSstop
      subst hSstop'
      simp only
      refine ⟨trivial, trivial, ?_, ?_, ?_⟩
      · refine ⟨eF, eH, ?_, ?_, ?_, eNh, ?_, ?_, ?_, eLog⟩
        · show AS.hooks.tail = AT.hooks.tail
          rw [hEs.2.2.2.2.1, hEt.2.2.2.2.1]
          simp only [List.tail_cons]
          exact oHk
        · exact oGm
        · show AS.ambientGid = AT.ambientGid
          rw [hEs.2.2.2.2.2.2.2.1, hEt.2.2.2.2.2.2.2.1]
          exact oAg
        · show AS.nextHolder = AT.nextHolder
          rw [hIs.1, hIt.1]
          exact oNho
        · show AS.nextFrame = AT.nextFrame
          rw [hIs.2, hIt.2]
          exact oNf
        · show AS.nextUuid = AT.nextUuid
          rw [hEs.2.2.2.2.2.2.2.2, hEt.2.2.2.2.2.2.2.2]
          exact oNu
      · show AS.earlyStop = true
        rw [hEs.2.2.2.2.2.2.1]
        exact hs
      · show AT.earlyStop = false
        rw [hEt.2.2.2.2.2.2.1]
        exact ht

theorem gafp_loop_eq (parent : Frame) (gid : Nat) (s t : St)
    (hH : s.holders = t.holders) :
    ∀ idxs, get_args_from_parent_loop parent gid s idxs =
      get_args_from_parent_loop parent gid t idxs := by
  intro idxs
  induction idxs with
  | nil => rfl
  | cons idx rest ih =>
    simp only [get_args_from_parent_loop, hH, ih]

theorem gafp_result_eq (fid pfid gid : Nat) (s t : St)
    (hF : s.frames = t.frames) (hH : s.holders = t.holders) :
    (get_args_from_parent fid pfid gid s).1 = (get_args_from_parent fid pfid gid t).1 := by
  cases h1 : alook fid s.frames with
  | none =>
    have h1T : alook fid t.frames = none := by rw [← hF]; exact h1
    simp only [get_args_from_parent, h1, h1T]
  | some fr =>
    have h1T : alook fid t.frames = some fr := by rw [← hF]; exact h1
    cases h2 : alook pfid s.frames with
    | none =>
      have h2T : alook pfid t.frames = none := by rw [← hF]; exact h2
      simp only [get_args_from_parent, h1, h1T, h2, h2T]
    | some pfr =>
      have h2T : alook pfid t.frames = some pfr := by rw [← hF]; exact h2
      cases h3 : fr.args_idx with
      | none => simp only [get_args_from_parent, h1, h1T, h2, h2T, h3]
      | some idxs =>
        simp only [get_args_from_parent, h1, h1T, h2, h2T, h3]
        exact gafp_loop_eq pfr gid s t hH idxs

theorem mark_frames_congr (fid gid : Nat) (s t : St) (h : s.frames = t.frames) :
    (markRecomputed fid gid s).frames = (markRecomputed fid gid t).frames := by
  cases halook : alook fid t.frames with
  | none =>
    have hS : alook fid s.frames = none := by rw [h]; exact halook
    simp only [markRecomputed, hS, halook]
    exact h
  | some fr =>
    have hS : alook fid s.frames = some fr := by rw [h]; exact halook
    simp only [markRecomputed, hS, halook]
    rw [h]

theorem runMatch_lockstep (gid fid : Nat) (args : List Inp) (s t : St) (fr : Frame)
    (hs : s.earlyStop = true) (ht : t.earlyStop = false)
    (hObs : obsEq s t) (hInv : stInv s gid)
    (hfr : alook fid s.frames = some fr)
    (hcnt : alookD fr.recomp_counter gid 0 = 0) :
    ((match tryRecompute fid gid args s with
      | (Except.ok _, s2) => (Except.ok (), markRecomputed fid gid s2)
      | (Except.error e, s2) => (Except.error e, s2)) : Except Err Unit × St).1 =
        Except.ok () ∧
    ((match tryRecompute fid gid args t with
      | (Except.ok _, s2) => (Except.ok (), markRecomputed fid gid s2)
      | (Except.error e, s2) => (Except.error e, s2)) : Except Err Unit × St).1 =
        Except.ok () ∧
    obsEq ((match tryRecompute fid gid args s with
      | (Except.ok _, s2) => (Except.ok (), markRecomputed fid gid s2)
      | (Except.error e, s2) => (Except.error e, s2)) : Except Err Unit × St).2
      ((match tryRecompute fid gid args t with
        | (Except.ok _, s2) => (Except.ok (), markRecomputed fid gid s2)
        | (Except.error e, s2) => (Except.error e, s2)) : Except Err Unit × St).2 ∧
    ((match tryRecompute fid gid args s with
      | (Except.ok _, s2) => (Except.ok (), markRecomputed fid gid s2)
      | (Except.error e, s2) => (Except.error e, s2)) : Except Err Unit × St).2.earlyStop
        = true ∧
    ((match tryRecompute fid gid args t with
      | (Except.ok _, s2) => (Except.ok (), markRecomputed fid gid s2)
      | (Except.error e, s2) => (Except.error e, s2)) : Except Err Unit × St).2.earlyStop
        = false ∧
    stInv ((match tryRecompute fid gid args s with
      | (Except.ok _, s2) => (Except.ok (), markRecomputed fid gid s2)
      | (Except.error e, s2) => (Except.error e, s2)) : Except Err Unit × St).2 gid := by
  have hcond := hInv fid fr hfr
  have hTL := tryRecompute_lockstep fid gid args s t fr hs ht hObs hfr
    (hcond.1 args) hcond.2.1 hcnt
  have hFS := tryRecompute_frame_self fid gid args s fr hfr
  cases hcS : tryRecompute fid gid args s with
  | mk rS AS =>
    cases hcT : tryRecompute fid gid args t with
    | mk rT AT =>
      rw [hcS] at hTL hFS
      rw [hcT] at hTL
      obtain ⟨hRok, hTok, hOE, hES, hET⟩ := hTL
      have hRok' : rS = Except.ok () := hRok
      subst hRok'
      have hTok' : rT = Except.ok () := hTok
      subst hTok'
      simp only
      obtain ⟨oF, oH, oHk, oGm, oAg, oNh, oNho, oNf, oNu, oLog⟩ := hOE
      have hMs := markRecomputed_effects fid gid AS
      have hMt := markRecomputed_effects fid gid AT
      have hWs := mark_writes fid gid AS
      have hWt := mark_writes fid gid AT
      refine ⟨trivial, trivial, ?_, ?_, ?_, ?_⟩
      · refine ⟨mark_frames_congr fid gid AS AT oF, ?_, ?_, ?_, ?_, ?_, ?_, ?_, ?_, ?_⟩
        · rw [hWs.1, hWt.1]; exact oH
        · rw [hMs.2.2.1, hMt.2.2.1]; exact oHk
        · rw [hMs.2.2.2.1, hMt.2.2.2.1]; exact oGm
        · rw [hMs.2.2.2.2.2.1, hMt.2.2.2.2.2.1]; exact oAg
        · rw [hWs.2.1, hWt.2.1]; exact oNh
        · rw [hWs.2.2.1, hWt.2.2.1]; exact oNho
        · rw [hWs.2.2.2, hWt.2.2.2]; exact oNf
        · rw [hMs.2.2.2.2.2.2.1, hMt.2.2.2.2.2.2.1]; exact oNu
        · rw [hMs.1, hMt.1]; exact oLog
      · rw [hMs.2.2.2.2.1]; exact hES
      · rw [hMt.2.2.2.2.1]; exact hET
      · obtain ⟨fr', hfr', pRfn, pWh, pRec, pMa, pAi, pCai⟩ := hFS
        intro f fr2 hf2
        by_cases hffid : f = fid
        · subst hffid
          rw [mark_frame_self f gid AS fr' hfr'] at hf2
          have hfr2 := Option.some.inj hf2
          subst hfr2
          refine ⟨?_, ?_, ?_⟩
          · intro a
            show (fr'.recompute_fn a).length = fr'.weak_holders.length
            rw [pRfn, pWh]
            exact hcond.1 a
          · show 0 < fr'.weak_holders.length
            rw [pWh]
            exact hcond.2.1
          · intro hflag
            exfalso
            simp only [alookD_aset_self] at hflag
            exact absurd hflag (by decide)
        · have hTO := tryRecompute_frames_other fid gid args s f hffid
          rw [hcS] at hTO
          rw [mark_frames_other fid gid AS f hffid, hTO] at hf2
          exact hInv f fr2 hf2

theorem processOne_lockstep (gid : Nat) (fl : List Nat) (i : Nat) (s t : St)
    (hs : s.earlyStop = true) (ht : t.earlyStop = false)
    (hObs : obsEq s t) (hInv : stInv s gid) :
    (processOneFrame gid fl i s).1 = (processOneFrame gid fl i t).1 ∧
    obsEq (processOneFrame gid fl i s).2 (processOneFrame gid fl i t).2 ∧
    (processOneFrame gid fl i s).2.earlyStop = true ∧
    (processOneFrame gid fl i t).2.earlyStop = false ∧
    stInv (processOneFrame gid fl i s).2 gid := by
  cases hget : fl.get? i with
  | none =>
    rw [processOne_eq_noget gid fl i s hget, processOne_eq_noget gid fl i t hget]
    exact ⟨rfl, hObs, hs, ht, hInv⟩
  | some fid =>
    cases hfrS : alook fid s.frames with
    | none =>
      have hfrT : alook fid t.frames = none := by rw [← hObs.1]; exact hfrS
      rw [processOne_eq_nofr gid fl i s fid hget hfrS,
          processOne_eq_nofr gid fl i t fid hget hfrT]
      exact ⟨rfl, hObs, hs, ht, hInv⟩
    | some fr =>
      have hfrT : alook fid t.frames = some fr := by rw [← hObs.1]; exact hfrS
      cases hflag : alookD fr.is_recomputed gid false with
      | true =>
        rw [processOne_eq_skip gid fl i s fid fr hget hfrS hflag,
            processOne_eq_skip gid fl i t fid fr hget hfrT hflag]
        exact ⟨rfl, hObs, hs, ht, hInv⟩
      | false =>
        have hcnt : alookD fr.recomp_counter gid 0 = 0 := (hInv fid fr hfrS).2.2 hflag
        cases hma : fr.maybe_args with
        | some args =>
          rw [processOne_eq_run_ma gid fl i s fid fr args hget hfrS hflag hma,
              processOne_eq_run_ma gid fl i t fid fr args hget hfrT hflag hma]
          have hRM := runMatch_lockstep gid fid args s t fr hs ht hObs hInv hfrS hcnt
          exact ⟨hRM.1.trans hRM.2.1.symm, hRM.2.2.1, hRM.2.2.2.1, hRM.2.2.2.2.1,
            hRM.2.2.2.2.2⟩
        | none =>
          cases hprev : pyPrev fl i with
          | none =>
            rw [processOne_eq_noprev gid fl i s fid fr hget hfrS hflag hma hprev,
                processOne_eq_noprev gid fl i t fid fr hget hfrT hflag hma hprev]
            exact ⟨rfl, hObs, hs, ht, hInv⟩
          | some pfid =>
            have hres := gafp_result_eq fid pfid gid s t hObs.1 hObs.2.1
            have hstS := gafp_state fid pfid gid s
            have hstT := gafp_state fid pfid gid t
            cases hga : get_args_from_parent fid pfid gid s with
            | mk ra sa =>
              cases hgaT : get_args_from_parent fid pfid gid t with
              | mk rb tb =>
                rw [hga] at hres hstS
                rw [hgaT] at hres hstT
                have hsa : sa = s := hstS
                have htb : tb = t := hstT
                rw [hsa] at hga
                rw [htb] at hgaT
                have hrab : ra = rb := hres
                subst hrab
                cases ra with
                | error e =>
                  rw [processOne_eq_gafp_err gid fl i s s fid pfid fr e hget hfrS hflag
                        hma hprev hga,
                      processOne_eq_gafp_err gid fl i t t fid pfid fr e hget hfrT hflag
                        hma hprev hgaT]
                  exact ⟨rfl, hObs, hs, ht, hInv⟩
                | ok args =>
                  rw [processOne_eq_run_parent gid fl i s s fid pfid fr args hget hfrS
                        hflag hma hprev hga,
                      processOne_eq_run_parent gid fl i t t fid pfid fr args hget hfrT
                        hflag hma hprev hgaT]
                  have hRM := runMatch_lockstep gid fid args s t fr hs ht hObs hInv
                    hfrS hcnt
                  exact ⟨hRM.1.trans hRM.2.1.symm, hRM.2.2.1, hRM.2.2.2.1,
                    hRM.2.2.2.2.1, hRM.2.2.2.2.2⟩

theorem processLoop_lockstep (gid : Nat) (fl : List Nat) :
    ∀ (l : List Nat) (s t : St),
    s.earlyStop = true → t.earlyStop = false → obsEq s t → stInv s gid →
    (processLoop gid fl l s).1 = (processLoop gid fl l t).1 ∧
    obsEq (processLoop gid fl l s).2 (processLoop gid fl l t).2 ∧
    (processLoop gid fl l s).2.earlyStop = true ∧
    (processLoop gid fl l t).2.earlyStop = false ∧
    stInv (processLoop gid fl l s).2 gid := by
  intro l
  induction l with
  | nil =>
    intro s t hs ht hObs hInv
    exact ⟨rfl, hObs, hs, ht, hInv⟩
  | cons i rest ih =>
    intro s t hs ht hObs hInv
    have hPO := processOne_lockstep gid fl i s t hs ht hObs hInv
    simp only [processLoop]
    cases hrS : processOneFrame gid fl i s with
    | mk rS AS =>
      cases hrT : processOneFrame gid fl i t with
      | mk rT AT =>
        rw [hrS, hrT] at hPO
        obtain ⟨hr, hOE, hES, hET, hSI⟩ := hPO
        have hr' : rS = rT := hr
        subst hr'
        cases rS with
        | ok a => exact ih AS AT hES hET hOE hSI
        | error e => exact ⟨rfl, hOE, hES, hET, hSI⟩

theorem unpack_lockstep_core (hid : Nat) (fl : List Nat) (u v : St)
    (hObsUV : obsEq u v)
    (hSel1 : (selectGid u).1 = (selectGid v).1)
    (hObs : obsEq (selectGid u).2 (selectGid v).2)
    (hsES : (selectGid u).2.earlyStop = true)
    (htES : (selectGid v).2.earlyStop = false)
    (hInv : stInv (selectGid u).2 (selectGid u).1) :
    (checkpoint_unpack_hook (hid, fl) u).1 = (checkpoint_unpack_hook (hid, fl) v).1 ∧
    obsEq (checkpoint_unpack_hook (hid, fl) u).2 (checkpoint_unpack_hook (hid, fl) v).2 := by
  cases hlast : fl.getLast? with
  | none =>
    simp only [checkpoint_unpack_hook, hlast]
    exact ⟨by trivial, hObsUV⟩
  | some topFid =>
    rw [hSel1] at hInv
    simp only [checkpoint_unpack_hook, hlast, processFrames]
    rw [hSel1]
    have hPL := processLoop_lockstep (selectGid v).1 fl (List.range fl.length)
      (selectGid u).2 (selectGid v).2 hsES htES hObs hInv
    cases hr1S : processLoop (selectGid v).1 fl (List.range fl.length) (selectGid u).2 with
    | mk r1s As =>
      cases hr1T : processLoop (selectGid v).1 fl (List.range fl.length) (selectGid v).2 with
      | mk r1t At =>
        rw [hr1S, hr1T] at hPL
        obtain ⟨hr, hOE, _, _, _⟩ := hPL
        have hr' : r1s = r1t := hr
        subst hr'
        cases r1s with
        | error e => exact ⟨by trivial, hOE⟩
        | ok a =>
          simp only
          cases hh : alook hid As.holders with
          | none =>
            have hhT : alook hid At.holders = none := by rw [← hOE.2.1]; exact hh
            simp only [hh, hhT]
            exact ⟨by trivial, hOE⟩
          | some hOpt =>
            have hhT : alook hid At.holders = some hOpt := by rw [← hOE.2.1]; exact hh
            cases hOpt with
            | none =>
              simp only [hh, hhT]
              exact ⟨by trivial, hOE⟩
            | some h =>
              simp only [hh, hhT]
              cases htf : alook topFid As.frames with
              | none =>
                have htfT : alook topFid At.frames = none := by rw [← hOE.1]; exact htf
                simp only [htf, htfT]
                exact ⟨by trivial, hOE⟩
              | some topFr =>
                have htfT : alook topFid At.frames = some topFr := by
                  rw [← hOE.1]; exact htf
                simp only [htf, htfT]
                cases hv : alook h (alookD topFr.recomputed (selectGid v).1 []) with
                | none =>
                  simp only [hv]
                  exact ⟨by trivial, hOE⟩
                | some v0 =>
                  simp only [hv]
                  refine ⟨by trivial, hOE.1, ?_, hOE.2.2.1, hOE.2.2.2.1, hOE.2.2.2.2.1,
                    hOE.2.2.2.2.2.1, hOE.2.2.2.2.2.2.1, hOE.2.2.2.2.2.2.2.1,
                    hOE.2.2.2.2.2.2.2.2.1, hOE.2.2.2.2.2.2.2.2.2⟩
                  show aset hid none As.holders = aset hid none At.holders
                  rw [hOE.2.1]

/-- Claim C3: enabling or disabling the early-stop optimization does not
change any externally observable result of a restore.  Under the replay
contract (each frame's recompute callback saves exactly one value per
recorded position, at least one position is recorded, and the replay
counter of a not-yet-recomputed frame is zero), the value returned by
`_checkpoint_hook.unpack_hook` and every state component other than the
early-stop flag itself and the global checkpoint-stack list are identical
whether early stop is enabled (the recompute callback is aborted by the
stop signal at the final save) or disabled (the full callback runs); only
the leaked recompute stack entry of the disabled run differs. -/
theorem early_stop_observational_equiv (s : St) (hid : Nat) (fl : List Nat)
    (hInv : ∀ g, stInv s g) :
    (checkpoint_unpack_hook (hid, fl) { s with earlyStop := true }).1 =
      (checkpoint_unpack_hook (hid, fl) { s with earlyStop := false }).1 ∧
    obsEq (checkpoint_unpack_hook (hid, fl) { s with earlyStop := true }).2
      (checkpoint_unpack_hook (hid, fl) { s with earlyStop := false }).2 := by
  have hfacts :
      (selectGid { s with earlyStop := true }).1 =
        (selectGid { s with earlyStop := false }).1 ∧
      obsEq (selectGid { s with earlyStop := true }).2
        (selectGid { s with earlyStop := false }).2 ∧
      (selectGid { s with earlyStop := true }).2.earlyStop = true ∧
      (selectGid { s with earlyStop := false }).2.earlyStop = false ∧
      stInv (selectGid { s with earlyStop := true }).2
        ((selectGid { s with earlyStop := true }).1) := by
    rcases Option.eq_none_or_eq_some s.ambientGid with hag | ⟨g, hag⟩
    · have h1 : selectGid { s with earlyStop := true } =
          (s.nextUuid, { s with earlyStop := true, nextUuid := s.nextUuid + 1 }) := by
        simp only [selectGid, hag]
      have h2 : selectGid { s with earlyStop := false } =
          (s.nextUuid, { s with earlyStop := false, nextUuid := s.nextUuid + 1 }) := by
        simp only [selectGid, hag]
      rw [h1, h2]
      exact ⟨rfl, ⟨rfl, rfl, rfl, rfl, rfl, rfl, rfl, rfl, rfl, rfl⟩, rfl, rfl,
        fun f fr h => hInv s.nextUuid f fr h⟩
    · have h1 : selectGid { s with earlyStop := true } =
          (g, { s with earlyStop := true }) := by
        simp only [selectGid, hag]
      have h2 : selectGid { s with earlyStop := false } =
          (g, { s with earlyStop := false }) := by
        simp only [selectGid, hag]
      rw [h1, h2]
      exact ⟨rfl, ⟨rfl, rfl, rfl, rfl, rfl, rfl, rfl, rfl, rfl, rfl⟩, rfl, rfl,
        fun f fr h => hInv g f fr h⟩
  exact unpack_lockstep_core hid fl _ _
    ⟨rfl, rfl, rfl, rfl, rfl, rfl, rfl, rfl, rfl, rfl⟩
    hfacts.1 hfacts.2.1 hfacts.2.2.1 hfacts.2.2.2.1 hfacts.2.2.2.2

theorem early_stop_observational_equiv_witness :
    (∀ g, stInv demoSt g) ∧
    ((checkpoint_unpack_hook (0, [0]) { demoSt with earlyStop := true }).1 =
       (checkpoint_unpack_hook (0, [0]) { demoSt with earlyStop := false }).1 ∧
     obsEq (checkpoint_unpack_hook (0, [0]) { demoSt with earlyStop := true }).2
       (checkpoint_unpack_hook (0, [0]) { demoSt with earlyStop := false }).2) := by
  have hInv : ∀ g, stInv demoSt g := by
    intro g f fr hfr
    by_cases h0 : 0 = f
    · simp only [demoSt, alook, h0, if_true] at hfr
      injection hfr with h
      subst h
      exact ⟨fun a => rfl, by decide, fun _ => rfl⟩
    · simp only [demoSt, alook, if_neg h0] at hfr
      exact Option.noConfusion hfr
  exact ⟨hInv, early_stop_observational_equiv demoSt 0 [0] hInv⟩
